import Mathlib

/-!
Shallow embedding of the AlbionBot voice-activity tracker
(`src/bot.py` and `src/database.py`): the session store, the
tracker's in-memory session dictionaries, the aggregation queries
and the JSON snapshot export/import, together with proofs about
them.

Wall-clock instants are modelled as integer seconds; calendar
dates (`strftime("%Y-%m-%d")`, SQL `Date(...)`) are modelled as
the day number `t.fdiv 86400`.  Float durations are modelled as
rationals; the stream-bonus multiplier (`STREAM_BONUS`, default
`"1.25"`) is the rational `5/4`.  A Python call that can raise an
uncaught exception is modelled as an `Option`-returning function,
with `none` for the raised exception.
-/

/-- Discord presence status (`discord.Status`). -/
inductive Status
  | online
  | idle
  | dnd
  | invisible
  | offline
deriving DecidableEq, Repr

/-- The attributes of a guild member that the tracker reads:
`member.voice.channel` (with `none` for no voice state or no
channel), the mute flags, the presence status and the display
names. -/
structure Member where
  userId : String
  guildId : String
  channelId : Option String
  selfMute : Bool
  serverMute : Bool
  status : Status
  username : String
  guildName : String
  channelName : String
deriving DecidableEq, Repr

/-- `VoiceTracker.is_user_active` (bot.py lines 81-98). -/
def is_user_active (m : Member) : Bool :=
  if m.channelId.isNone then false
  else if m.selfMute || m.serverMute then false
  else !(m.status == Status.invisible || m.status == Status.idle || m.status == Status.offline)

/-- Classification of a member, as the specification's classifier
contract states it. -/
inductive Classification
  | Disconnected
  | Inactive
  | Active
deriving DecidableEq, Repr

/-- Modelled from the spec: the classifier rule of section 4.1,
in order: not connected, muted, away-status, otherwise Active.
Used to compare `is_user_active` against the rule. -/
def classify (connected selfMuted serverMuted : Bool) (status : Status) : Classification :=
  if !connected then Classification.Disconnected
  else if selfMuted || serverMuted then Classification.Inactive
  else if status == Status.idle || status == Status.invisible || status == Status.offline then
    Classification.Inactive
  else Classification.Active

/-- One exported record of the `voice_sessions` table, as written
by `VoiceDatabase.export_to_json` (database.py lines 285-295).
The record carries no `is_live` field. -/
structure SessionRow where
  sid : Nat
  userId : String
  guildId : String
  channelId : String
  startTime : Int
  endTime : Option Int
  durationSeconds : Option ℚ
  isActive : Bool
deriving DecidableEq, Repr

/-- Parsed contents of a `voice_backup_*.json` artifact. -/
structure BackupData where
  users : List (String × String)
  guilds : List (String × String)
  channels : List (String × String × String)
  voiceSessions : List SessionRow
deriving DecidableEq, Repr

/-- A backup file on disk: either parseable JSON or corrupt
(`json.load` raises on it). -/
inductive Artifact
  | valid (data : BackupData)
  | corrupt
deriving DecidableEq, Repr

/-- A row of the `VoiceSession` table (database.py lines 44-57). -/
structure Session where
  sid : Nat
  userId : String
  guildId : String
  channelId : String
  startTime : Int
  endTime : Option Int
  durationSeconds : Option ℚ
  isActive : Bool
  isLive : Bool
deriving DecidableEq, Repr

/-- The SQLite database together with the on-disk backup
artifacts (newest first), as `VoiceDatabase` sees them. -/
structure Store where
  users : List (String × String)
  guilds : List (String × String)
  channels : List (String × String × String)
  sessions : List Session
  nextId : Nat
  streamBonus : ℚ
  backups : List Artifact
deriving DecidableEq, Repr

/-- `insert(...).on_conflict_replace()` on a table keyed by its
first column. -/
def upsert (l : List (String × String)) (k v : String) : List (String × String) :=
  if l.any (fun p => p.1 == k) then
    l.map (fun p => if p.1 == k then (k, v) else p)
  else l ++ [(k, v)]

/-- `VoiceDatabase.upsert_channel`, with the channel table keyed
by channel id; an entry is `(channel_id, channel_name, guild_id)`. -/
def upsertChannel (l : List (String × String × String)) (cid cname gid : String) :
    List (String × String × String) :=
  if l.any (fun p => p.1 == cid) then
    l.map (fun p => if p.1 == cid then (cid, cname, gid) else p)
  else l ++ [(cid, cname, gid)]

/-- The row update `VoiceDatabase.end_session` performs on the
fetched session: set `end_time`, compute the duration from the
row's own `start_time`, scaled by the stream bonus if `is_live`. -/
def closeSession (bonus : ℚ) (now : Int) (s : Session) : Session :=
  let d : ℚ := ((now - s.startTime : Int) : ℚ)
  { s with endTime := some now,
           durationSeconds := some (if s.isLive then d * bonus else d) }

/-- `VoiceDatabase.start_session` (database.py lines 103-148):
upsert the user, guild and channel, then create a fresh open
session row. -/
def start_session (db : Store) (userId guildId channelId username guildName channelName : String)
    (now : Int) (isActive isLive : Bool) : Store × Nat :=
  let users := upsert db.users userId username
  let guilds := upsert db.guilds guildId guildName
  let channels := upsertChannel db.channels channelId channelName guildId
  let s : Session :=
    { sid := db.nextId, userId := userId, guildId := guildId, channelId := channelId,
      startTime := now, endTime := none, durationSeconds := none,
      isActive := isActive, isLive := isLive }
  ({ db with users := users, guilds := guilds, channels := channels,
             sessions := db.sessions ++ [s], nextId := db.nextId + 1 }, db.nextId)

/-- `VoiceDatabase.end_session` (database.py lines 150-168):
`get_by_id` raises (`none`) when the id is unknown; otherwise the
fetched row is overwritten with the new end time and recomputed
duration, whether or not it was already closed. -/
def end_session (db : Store) (sessionId : Nat) (now : Int) : Option Store :=
  match db.sessions.find? (fun s => s.sid == sessionId) with
  | none => none
  | some _ =>
    let updated := db.sessions.map (fun s =>
      if s.sid == sessionId then closeSession db.streamBonus now s else s)
    some { db with sessions := updated }

/-- Day number of a wall-clock instant: models both
`strftime("%Y-%m-%d")` and SQL `Date(start_time)`. -/
def dateOf (t : Int) : Int := t.fdiv 86400

/-- `VoiceDatabase.get_user_time_for_date` (database.py lines
170-205): SQL `SUM` of `duration_seconds` over the rows matching
user, guild and start date, with NULL durations (open sessions)
skipped and the empty sum coalesced to 0. -/
def get_user_time_for_date (db : Store) (userId guildId : String) (date : Int)
    (isActive : Option Bool) : ℚ :=
  (db.sessions.filterMap (fun s =>
    if (s.userId == userId && s.guildId == guildId && dateOf s.startTime == date
        && (match isActive with | none => true | some b => s.isActive == b))
    then s.durationSeconds else none)).sum

/-- `VoiceDatabase.cleanup_old_data` (database.py lines 236-245):
delete every session whose start date is before the cutoff date
`days` days ago. -/
def cleanup_old_data (db : Store) (days : Nat) (now : Int) : Store :=
  let cutoff := dateOf (now - (days : Int) * 86400)
  { db with sessions := db.sessions.filter (fun s => !(decide (dateOf s.startTime < cutoff))) }

/-- `VoiceDatabase.get_active_session_time` (database.py lines
247-263): the elapsed `now - start_time` of the session when it
exists and is still open, else 0.  No stream-bonus adjustment is
applied here. -/
def get_active_session_time (db : Store) (sessionId : Nat) (now : Int) : ℚ :=
  match db.sessions.find? (fun s => s.sid == sessionId && s.endTime.isNone) with
  | some s => ((now - s.startTime : Int) : ℚ)
  | none => 0

/-- The session record `export_to_json` writes: every field of
the row except `is_live`. -/
def rowOf (s : Session) : SessionRow :=
  { sid := s.sid, userId := s.userId, guildId := s.guildId, channelId := s.channelId,
    startTime := s.startTime, endTime := s.endTime,
    durationSeconds := s.durationSeconds, isActive := s.isActive }

/-- The artifact contents `VoiceDatabase.export_to_json` emits
(database.py lines 265-302). -/
def backupOf (db : Store) : BackupData :=
  { users := db.users, guilds := db.guilds, channels := db.channels,
    voiceSessions := db.sessions.map rowOf }

/-- `VoiceDatabase.export_to_json` followed by its call to
`cleanup_old_backups`: write a new artifact and keep only the 2
most recent backup files. -/
def export_to_json (db : Store) : Store :=
  { db with backups := (Artifact.valid (backupOf db) :: db.backups).take 2 }

/-- One iteration of the session-import loop in
`VoiceDatabase.import_from_json` (database.py lines 339-361):
skip an already-present id, skip a row whose user, guild or
channel is missing (the caught `DoesNotExist` cases), otherwise
recreate the row; `is_live` is not in the record, so the model
default `is_live = False` applies.  The store's next fresh id is
bumped past the explicitly inserted id, as SQLite's rowid
allocation does. -/
def import_session_row (db : Store) (r : SessionRow) : Store :=
  if db.sessions.any (fun s => s.sid == r.sid) then db
  else if db.users.any (fun p => p.1 == r.userId)
      && db.guilds.any (fun p => p.1 == r.guildId)
      && db.channels.any (fun p => p.1 == r.channelId) then
    { db with
      sessions := db.sessions ++
        [{ sid := r.sid, userId := r.userId, guildId := r.guildId, channelId := r.channelId,
           startTime := r.startTime, endTime := r.endTime,
           durationSeconds := r.durationSeconds, isActive := r.isActive, isLive := false }],
      nextId := max db.nextId (r.sid + 1) }
  else db

/-- The body of `VoiceDatabase.import_from_json` on parsed data:
upsert users, guilds and channels (a channel row whose guild is
missing raises `Guild.DoesNotExist`, which the channel loop does
not catch), then import the session rows. -/
def import_backup (db : Store) (d : BackupData) : Option Store := do
  let db := d.users.foldl (fun db p => { db with users := upsert db.users p.1 p.2 }) db
  let db := d.guilds.foldl (fun db p => { db with guilds := upsert db.guilds p.1 p.2 }) db
  let db ← d.channels.foldlM (fun db p =>
    if db.guilds.any (fun q => q.1 == p.2.2) then
      some { db with channels := upsertChannel db.channels p.1 p.2.1 p.2.2 }
    else none) db
  some (d.voiceSessions.foldl import_session_row db)

/-- `VoiceDatabase.import_from_json` (database.py lines 313-361):
no backup file means an early return; a corrupt latest backup
makes `json.load` raise (`none`); otherwise the parsed data is
imported. -/
def import_from_json (db : Store) : Option Store :=
  match db.backups with
  | [] => some db
  | Artifact.corrupt :: _ => none
  | Artifact.valid d :: _ => import_backup db d

/-- The in-memory state of the `VoiceTracker` cog: the database
plus the `active_sessions` and `inactive_sessions` dictionaries
mapping a user id to an open session id. -/
structure TrackerState where
  db : Store
  activeSessions : List (String × Nat)
  inactiveSessions : List (String × Nat)
deriving DecidableEq, Repr

/-- Python `dict` lookup on an association list. -/
def dictLookup (u : String) : List (String × Nat) → Option Nat
  | [] => none
  | p :: rest => if p.1 = u then some p.2 else dictLookup u rest

/-- Python `dict.pop`: remove the entry for a key. -/
def eraseKey (u : String) (l : List (String × Nat)) : List (String × Nat) :=
  l.filter (fun p => !(p.1 == u))

/-- `VoiceTracker.end_active_session` (bot.py lines 154-166):
when the user has a tracked active session, pop it from the
dictionary and close it in the database; otherwise do nothing. -/
def end_active_session (st : TrackerState) (userId : String) (now : Int) : Option TrackerState :=
  match dictLookup userId st.activeSessions with
  | none => some st
  | some sessionId =>
    (end_session st.db sessionId now).map (fun db =>
      { st with db := db, activeSessions := eraseKey userId st.activeSessions })

/-- `VoiceTracker.end_inactive_session` (bot.py lines 168-180). -/
def end_inactive_session (st : TrackerState) (userId : String) (now : Int) : Option TrackerState :=
  match dictLookup userId st.inactiveSessions with
  | none => some st
  | some sessionId =>
    (end_session st.db sessionId now).map (fun db =>
      { st with db := db, inactiveSessions := eraseKey userId st.inactiveSessions })

/-- `VoiceTracker.end_all_sessions` (bot.py lines 182-190). -/
def end_all_sessions (st : TrackerState) (userId : String) (now : Int) : Option TrackerState := do
  let st1 ← end_active_session st userId now
  end_inactive_session st1 userId now

/-- `VoiceTracker.start_active_session` (bot.py lines 100-125):
a no-op unless the user has no tracked active session and
`is_user_active` holds; otherwise first end a tracked inactive
session if present, then create a new active session row and
record it in the dictionary. -/
def start_active_session (st : TrackerState) (m : Member) (now : Int) : Option TrackerState :=
  if (dictLookup m.userId st.activeSessions).isNone && is_user_active m then do
    let st1 ← if (dictLookup m.userId st.inactiveSessions).isSome
              then end_inactive_session st m.userId now else pure st
    let res := start_session st1.db m.userId m.guildId (m.channelId.getD "")
      m.username m.guildName m.channelName now true false
    pure { st1 with db := res.1, activeSessions := (m.userId, res.2) :: st1.activeSessions }
  else pure st

/-- `VoiceTracker.start_inactive_session` (bot.py lines 127-152):
a no-op unless the user has no tracked inactive session and is
connected to a voice channel; otherwise first end a tracked
active session if present, then create a new inactive session
row and record it in the dictionary. -/
def start_inactive_session (st : TrackerState) (m : Member) (now : Int) : Option TrackerState :=
  if (dictLookup m.userId st.inactiveSessions).isNone && m.channelId.isSome then do
    let st1 ← if (dictLookup m.userId st.activeSessions).isSome
              then end_active_session st m.userId now else pure st
    let res := start_session st1.db m.userId m.guildId (m.channelId.getD "")
      m.username m.guildName m.channelName now false false
    pure { st1 with db := res.1, inactiveSessions := (m.userId, res.2) :: st1.inactiveSessions }
  else pure st

/-- Close, one after the other, every session id held in a
dictionary: the loops of `VoiceTracker.daily_reset`. -/
def end_sessions_list (db : Store) (l : List (String × Nat)) (now : Int) : Option Store :=
  match l with
  | [] => some db
  | p :: rest =>
    match end_session db p.2 now with
    | none => none
    | some db1 => end_sessions_list db1 rest now

/-- `VoiceTracker.daily_reset` (bot.py lines 272-288): close and
pop every tracked active session, then every tracked inactive
session, then delete sessions older than 30 days.  No snapshot
export happens here. -/
def daily_reset (st : TrackerState) (now : Int) : Option TrackerState := do
  let db1 ← end_sessions_list st.db st.activeSessions now
  let db2 ← end_sessions_list db1 st.inactiveSessions now
  pure { st with db := cleanup_old_data db2 30 now,
                 activeSessions := [], inactiveSessions := [] }

/-- `VoiceTracker.track_existing_users` (bot.py lines 43-69): for
every member currently in a voice channel, start an active or an
inactive session according to `is_user_active`. -/
def track_existing_users (st : TrackerState) (members : List Member) (now : Int) :
    Option TrackerState :=
  members.foldlM (fun st m =>
    if is_user_active m then start_active_session st m now
    else start_inactive_session st m now) st

/-- Models `VoiceTracker.initialize` (bot.py lines 35-41):
connect to the database, import the latest snapshot, then run
`track_existing_users` over the currently connected members.  An
exception from the import aborts the whole task, so the tracking
pass does not run in that case. -/
def startup (st : TrackerState) (members : List Member) (now : Int) : Option TrackerState := do
  let db ← import_from_json st.db
  track_existing_users { st with db := db } members now

/-- The per-classification totals that `VoiceTracker.voice_time`
(bot.py lines 290-321) reports for today: stored closed-session
time for today's date plus the live elapsed time of a currently
tracked session, as `(total active seconds, total inactive
seconds)`. -/
def voice_time (st : TrackerState) (userId guildId : String) (now : Int) : ℚ × ℚ :=
  let todayKey := dateOf now
  let currentActive : ℚ :=
    match dictLookup userId st.activeSessions with
    | some sid => get_active_session_time st.db sid now
    | none => 0
  let currentInactive : ℚ :=
    match dictLookup userId st.inactiveSessions with
    | some sid => get_active_session_time st.db sid now
    | none => 0
  let storedActive := get_user_time_for_date st.db userId guildId todayKey (some true)
  let storedInactive := get_user_time_for_date st.db userId guildId todayKey (some false)
  (storedActive + currentActive, storedInactive + currentInactive)

/-- The combined reported voice time for today. -/
def voice_time_total (st : TrackerState) (userId guildId : String) (now : Int) : ℚ :=
  (voice_time st userId guildId now).1 + (voice_time st userId guildId now).2

/-- One session-tracking operation of the cog, with the wall
clock at which it runs. -/
inductive Op
  | startActive (m : Member) (t : Int)
  | startInactive (m : Member) (t : Int)
  | endActive (m : Member) (t : Int)
  | endInactive (m : Member) (t : Int)
  | endAll (m : Member) (t : Int)
  | dailyReset (t : Int)
deriving DecidableEq, Repr

/-- Dispatch one operation. -/
def step (st : TrackerState) (op : Op) : Option TrackerState :=
  match op with
  | Op.startActive m t => start_active_session st m t
  | Op.startInactive m t => start_inactive_session st m t
  | Op.endActive m t => end_active_session st m.userId t
  | Op.endInactive m t => end_inactive_session st m.userId t
  | Op.endAll m t => end_all_sessions st m.userId t
  | Op.dailyReset t => daily_reset st t

/-- The default stream bonus `float(environ.get("STREAM_BONUS", "1.25"))`,
as the reduced rational 5/4, written as an explicit
numerator-denominator pair so that it evaluates by kernel
reduction. -/
def streamBonusDefault : ℚ := ⟨5, 4, by decide, by decide⟩

/-- A store with the given backup artifacts and no other data;
the stream bonus is the default `1.25`. -/
def emptyStore (backups : List Artifact) : Store :=
  { users := [], guilds := [], channels := [], sessions := [], nextId := 0,
    streamBonus := streamBonusDefault, backups := backups }

/-- The cog's state right after construction (bot.py lines
17-33): empty dictionaries and an empty database. -/
def initState : TrackerState :=
  { db := emptyStore [], activeSessions := [], inactiveSessions := [] }

/-- Run a sequence of operations from the initial state. -/
def run (ops : List Op) : Option TrackerState :=
  ops.foldlM step initState

/-- The database after `end_session` found its row: the row with
the given id is overwritten by `closeSession`. -/
def closeInDb (db : Store) (sessionId : Nat) (now : Int) : Store :=
  { db with sessions := db.sessions.map (fun s =>
      if s.sid == sessionId then closeSession db.streamBonus now s else s) }

/-- The update a full `daily_reset` dictionary loop applies to one
row: close it when its id is held in the dictionary. -/
def closeManyUpd (bonus : ℚ) (l : List (String × Nat)) (now : Int) (t : Session) : Session :=
  if l.any (fun p => p.2 == t.sid) then closeSession bonus now t else t

/-- The reachable-state invariant of the tracker: session ids are
fresh and unique, the two dictionaries never share a user, every
dictionary entry points to an open session of the matching
classification for that user, and every open session is recorded
in the dictionary of its classification. -/
abbrev TrackerInv (st : TrackerState) : Prop :=
  (∀ s ∈ st.db.sessions, s.sid < st.db.nextId) ∧
  (st.db.sessions.map Session.sid).Nodup ∧
  (∀ p ∈ st.activeSessions, dictLookup p.1 st.inactiveSessions = none) ∧
  (∀ p ∈ st.activeSessions, ∃ s ∈ st.db.sessions,
    s.sid = p.2 ∧ s.userId = p.1 ∧ s.endTime = none ∧ s.isActive = true) ∧
  (∀ p ∈ st.inactiveSessions, ∃ s ∈ st.db.sessions,
    s.sid = p.2 ∧ s.userId = p.1 ∧ s.endTime = none ∧ s.isActive = false) ∧
  (∀ s ∈ st.db.sessions, s.endTime = none →
    (s.isActive = true → dictLookup s.userId st.activeSessions = some s.sid) ∧
    (s.isActive = false → dictLookup s.userId st.inactiveSessions = some s.sid))

/-! ## Concrete instances used by witnesses and counterexamples -/

/-- Member used by the C1 and C3 witnesses: connected, unmuted,
online. -/
def c1_member : Member :=
  { userId := "a", guildId := "g", channelId := some "c",
    selfMute := false, serverMute := false, status := Status.online,
    username := "A", guildName := "G", channelName := "C" }

/-- The same member, self-muted. -/
def c1_memberMuted : Member := { c1_member with selfMute := true }

/-- Operation sequence used by the C1 witness. -/
def c1_ops : List Op := [Op.startActive c1_member 0, Op.startInactive c1_memberMuted 100]

/-- The state `run c1_ops` produces. -/
def c1_state : TrackerState :=
  { db := { users := [("a", "A")],
            guilds := [("g", "G")],
            channels := [("c", "C", "g")],
            sessions := [{ sid := 0, userId := "a", guildId := "g", channelId := "c",
                           startTime := 0, endTime := some 100,
                           durationSeconds := some 100, isActive := true, isLive := false },
                         { sid := 1, userId := "a", guildId := "g", channelId := "c",
                           startTime := 100, endTime := none,
                           durationSeconds := none, isActive := false, isLive := false }],
            nextId := 2,
            streamBonus := streamBonusDefault,
            backups := [] },
    activeSessions := [],
    inactiveSessions := [("a", 1)] }

/-- The open sessions of one classification that the store holds
for a user. -/
def open_sessions_for (db : Store) (userId : String) (act : Bool) : List Session :=
  db.sessions.filter (fun s => s.userId == userId && s.isActive == act && s.endTime.isNone)

/-- An open session that started at time 100 (for C5): closing it
earlier than its start exercises the clock-skew path. -/
def c5_session : Session :=
  { sid := 0, userId := "u5", guildId := "g5", channelId := "c5",
    startTime := 100, endTime := none, durationSeconds := none,
    isActive := true, isLive := false }

/-- Store holding only `c5_session`. -/
def c5_store : Store :=
  { users := [("u5", "U5")], guilds := [("g5", "G5")], channels := [("c5", "C5", "g5")],
    sessions := [c5_session], nextId := 1,
    streamBonus := streamBonusDefault, backups := [] }

/-- An already-closed session (for C7): end_time 10, duration 10. -/
def c7_session : Session :=
  { sid := 0, userId := "u7", guildId := "g7", channelId := "c7",
    startTime := 0, endTime := some 10, durationSeconds := some 10,
    isActive := true, isLive := false }

/-- Store holding only the closed `c7_session`; session id 3 is
unknown in it. -/
def c7_store : Store :=
  { users := [("u7", "U7")], guilds := [("g7", "G7")], channels := [("c7", "C7", "g7")],
    sessions := [c7_session], nextId := 1,
    streamBonus := streamBonusDefault, backups := [] }

/-- A fresh tracker state whose only backup artifact is corrupt
(for C8). -/
def c8_state : TrackerState :=
  { db := emptyStore [Artifact.corrupt], activeSessions := [], inactiveSessions := [] }

/-- A fresh tracker state whose latest backup artifact is corrupt
while an older valid one exists (for the C8 witness). -/
def c8_state2 : TrackerState :=
  { db := emptyStore [Artifact.corrupt,
      Artifact.valid { users := [], guilds := [], channels := [], voiceSessions := [] }],
    activeSessions := [], inactiveSessions := [] }

/-- A session created with `is_live = True` (for C10). -/
def c10_session : Session :=
  { sid := 0, userId := "ua", guildId := "ga", channelId := "ca",
    startTime := 50, endTime := none, durationSeconds := none,
    isActive := true, isLive := true }

/-- Store holding the live `c10_session`. -/
def c10_db : Store :=
  { users := [("ua", "UA")], guilds := [("ga", "GA")], channels := [("ca", "CA", "ga")],
    sessions := [c10_session], nextId := 1,
    streamBonus := streamBonusDefault, backups := [] }

/-- The session as the snapshot round trip recreates it: same
fields, but `is_live = False`. -/
def c10_imported : Session :=
  { sid := 0, userId := "ua", guildId := "ga", channelId := "ca",
    startTime := 50, endTime := none, durationSeconds := none,
    isActive := true, isLive := false }

/-- The store produced by importing `backupOf c10_db` into an
empty store. -/
def c10_result : Store :=
  { users := [("ua", "UA")], guilds := [("ga", "GA")], channels := [("ca", "CA", "ga")],
    sessions := [c10_imported], nextId := 1,
    streamBonus := streamBonusDefault, backups := [] }

/-- Snapshot contents with one still-open session for user "u9",
started at time 800 (for C9: the pre-crash state). -/
def c9_backup : BackupData :=
  { users := [("u9", "U9")], guilds := [("g9", "G9")], channels := [("c9", "C9", "g9")],
    voiceSessions := [{ sid := 1, userId := "u9", guildId := "g9", channelId := "c9",
                        startTime := 800, endTime := none, durationSeconds := none,
                        isActive := true }] }

/-- A fresh post-restart tracker state: empty dictionaries, empty
database, with the pre-crash snapshot on disk. -/
def c9_state : TrackerState :=
  { db := emptyStore [Artifact.valid c9_backup], activeSessions := [], inactiveSessions := [] }

/-- The member of the open snapshot session, still connected and
active at restart. -/
def c9_member : Member :=
  { userId := "u9", guildId := "g9", channelId := some "c9",
    selfMute := false, serverMute := false, status := Status.online,
    username := "U9", guildName := "G9", channelName := "C9" }

/-- The state `startup c9_state [c9_member] 1000` produces: the
imported session 1 is still open and a duplicate session 2 was
created for the same user. -/
def c9_result : TrackerState :=
  { db := { users := [("u9", "U9")],
            guilds := [("g9", "G9")],
            channels := [("c9", "C9", "g9")],
            sessions := [{ sid := 1, userId := "u9", guildId := "g9", channelId := "c9",
                           startTime := 800, endTime := none, durationSeconds := none,
                           isActive := true, isLive := false },
                         { sid := 2, userId := "u9", guildId := "g9", channelId := "c9",
                           startTime := 1000, endTime := none, durationSeconds := none,
                           isActive := true, isLive := false }],
            nextId := 3,
            streamBonus := streamBonusDefault,
            backups := [Artifact.valid c9_backup] },
    activeSessions := [("u9", 2)],
    inactiveSessions := [] }

/-- The fresh active session row `start_active_session` creates
for a member at a given time with the next store id. -/
def newSessionOf (m : Member) (now : Int) (nid : Nat) : Session :=
  { sid := nid, userId := m.userId, guildId := m.guildId, channelId := m.channelId.getD "",
    startTime := now, endTime := none, durationSeconds := none,
    isActive := true, isLive := false }

/-- The imported pre-crash session as it sits in the store after
the snapshot import (for the C9 witness). -/
def c9_session1 : Session :=
  { sid := 1, userId := "u9", guildId := "g9", channelId := "c9",
    startTime := 800, endTime := none, durationSeconds := none,
    isActive := true, isLive := false }

/-- The tracker state right after the snapshot import and before
the reconciliation pass: the imported open session is in the
store, both dictionaries are empty. -/
def c9_mid : TrackerState :=
  { db := { users := [("u9", "U9")], guilds := [("g9", "G9")],
            channels := [("c9", "C9", "g9")],
            sessions := [c9_session1], nextId := 2,
            streamBonus := streamBonusDefault,
            backups := [Artifact.valid c9_backup] },
    activeSessions := [], inactiveSessions := [] }

/-- The live elapsed time of a tracked session as claim C4
states it: `now - start_time`, multiplier-adjusted when the open
session has `is_live` set.  Modelled from the spec for comparison
with `get_active_session_time`, which never adjusts. -/
def live_elapsed_adjusted (db : Store) (sessionId : Nat) (now : Int) : ℚ :=
  match db.sessions.find? (fun s => s.sid == sessionId && s.endTime.isNone) with
  | some s =>
    let d : ℚ := ((now - s.startTime : Int) : ℚ)
    if s.isLive then d * db.streamBonus else d
  | none => 0

/-- Modelled from the spec (claim C4 as stated): the reported
total is the sum of `duration_seconds` over closed sessions
matching (user, guild, today) plus, when the tracker holds an
open session for the user, the live elapsed time
`now - start_time` adjusted by the multiplier when `is_live` is
set. -/
def claim_reported_total (st : TrackerState) (userId guildId : String) (now : Int) : ℚ :=
  let closed : ℚ := (st.db.sessions.filterMap (fun s =>
    if s.userId == userId && s.guildId == guildId && dateOf s.startTime == dateOf now
    then s.durationSeconds else none)).sum
  let live : ℚ :=
    match dictLookup userId st.activeSessions, dictLookup userId st.inactiveSessions with
    | some sid, _ => live_elapsed_adjusted st.db sid now
    | none, some sid => live_elapsed_adjusted st.db sid now
    | none, none => 0
  closed + live

/-- The amended reading of claim C4, written declaratively over
the stored rows: the sum of `duration_seconds` over sessions
matching (user, guild, today) whose duration is recorded, plus
the raw elapsed time `now - start_time` of each open session of
the user, with no multiplier adjustment. -/
def spec_total_unadjusted (st : TrackerState) (userId guildId : String) (now : Int) : ℚ :=
  (st.db.sessions.filterMap (fun s =>
    if s.userId == userId && s.guildId == guildId && dateOf s.startTime == dateOf now
    then s.durationSeconds else none)).sum
  + ((st.db.sessions.filter (fun s => s.userId == userId && s.endTime.isNone)).map
      (fun s => ((now - s.startTime : Int) : ℚ))).sum

/-- An open session created with `is_live = True` and tracked as
active (for C4): started at 1000. -/
def c4_session : Session :=
  { sid := 0, userId := "u4", guildId := "g4", channelId := "c4",
    startTime := 1000, endTime := none, durationSeconds := none,
    isActive := true, isLive := true }

/-- Tracker state holding the live `c4_session` as the user's
open active session. -/
def c4_state : TrackerState :=
  { db := { users := [("u4", "U4")], guilds := [("g4", "G4")],
            channels := [("c4", "C4", "g4")],
            sessions := [c4_session], nextId := 1,
            streamBonus := streamBonusDefault, backups := [] },
    activeSessions := [("u4", 0)], inactiveSessions := [] }

/-! ## Lemmas and claim theorems -/

theorem dictLookup_eq_none_iff (u : String) (l : List (String × Nat)) :
    dictLookup u l = none ↔ ∀ p ∈ l, p.1 ≠ u := by
  induction l with
  | nil => simp [dictLookup]
  | cons p rest ih =>
    by_cases h : p.1 = u <;> simp [dictLookup, h, ih]

theorem mem_of_dictLookup {u : String} {sid : Nat} {l : List (String × Nat)}
    (h : dictLookup u l = some sid) : (u, sid) ∈ l := by
  induction l with
  | nil => simp [dictLookup] at h
  | cons p rest ih =>
    obtain ⟨k, v⟩ := p
    simp only [dictLookup] at h
    by_cases hk : k = u
    · subst hk
      rw [if_pos rfl] at h
      obtain rfl : v = sid := Option.some.inj h
      exact List.mem_cons_self _ _
    · rw [if_neg hk] at h
      exact List.mem_cons_of_mem _ (ih h)

theorem mem_eraseKey {p : String × Nat} {u : String} {l : List (String × Nat)} :
    p ∈ eraseKey u l ↔ p ∈ l ∧ p.1 ≠ u := by
  simp [eraseKey, List.mem_filter]

theorem dictLookup_eraseKey_self (u : String) (l : List (String × Nat)) :
    dictLookup u (eraseKey u l) = none := by
  rw [dictLookup_eq_none_iff]
  intro p hp
  exact (mem_eraseKey.mp hp).2

theorem dictLookup_eraseKey_ne (u v : String) (l : List (String × Nat)) (h : v ≠ u) :
    dictLookup v (eraseKey u l) = dictLookup v l := by
  induction l with
  | nil => rfl
  | cons p rest ih =>
    by_cases hp : p.1 = u
    · have hpv : p.1 ≠ v := fun hh => h (hh ▸ hp)
      have he : eraseKey u (p :: rest) = eraseKey u rest := by
        simp [eraseKey, List.filter_cons, hp]
      rw [he, ih]
      simp [dictLookup, hpv]
    · have he : eraseKey u (p :: rest) = p :: eraseKey u rest := by
        simp [eraseKey, List.filter_cons, hp]
      rw [he]
      by_cases hv : p.1 = v
      · simp [dictLookup, hv]
      · simp [dictLookup, hv, ih]

theorem eq_of_nodup_map {α β : Type} {f : α → β} {l : List α} (hn : (l.map f).Nodup)
    {a b : α} (ha : a ∈ l) (hb : b ∈ l) (h : f a = f b) : a = b := by
  induction l with
  | nil => cases ha
  | cons x rest ih =>
    rw [List.map_cons, List.nodup_cons] at hn
    rcases List.mem_cons.mp ha with rfl | ha2
    · rcases List.mem_cons.mp hb with rfl | hb2
      · rfl
      · exact absurd (h ▸ List.mem_map_of_mem f hb2) hn.1
    · rcases List.mem_cons.mp hb with rfl | hb2
      · exact absurd (h ▸ List.mem_map_of_mem f ha2) hn.1
      · exact ih hn.2 ha2 hb2

theorem length_eq_one_of_nodup {α : Type} {l : List α} (hn : l.Nodup) {a : α} (ha : a ∈ l)
    (hall : ∀ b ∈ l, b = a) : l.length = 1 := by
  cases l with
  | nil => cases ha
  | cons x rest =>
    cases rest with
    | nil => rfl
    | cons y rest2 =>
      have hx : x = a := hall _ (List.mem_cons_self _ _)
      have hy : y = a := hall _ (List.mem_cons_of_mem _ (List.mem_cons_self _ _))
      rw [List.nodup_cons] at hn
      exact absurd (by rw [hx, hy]; exact List.mem_cons_self _ _) hn.1

theorem end_session_eq_some {db : Store} {sessionId : Nat} {now : Int} {s : Session}
    (hs : s ∈ db.sessions) (hsid : s.sid = sessionId) :
    end_session db sessionId now = some (closeInDb db sessionId now) := by
  have hfind : ∃ w, db.sessions.find? (fun t => t.sid == sessionId) = some w := by
    rw [← Option.isSome_iff_exists, List.find?_isSome]
    exact ⟨s, hs, by simp [hsid]⟩
  obtain ⟨w, hw⟩ := hfind
  simp only [end_session, hw, closeInDb]

theorem end_session_eq_none {db : Store} {sessionId : Nat} {now : Int}
    (h : ∀ s ∈ db.sessions, s.sid ≠ sessionId) :
    end_session db sessionId now = none := by
  have hfind : db.sessions.find? (fun t => t.sid == sessionId) = none := by
    rw [List.find?_eq_none]
    intro x hx
    simp [h x hx]
  simp only [end_session, hfind]

theorem sid_closeSession (bonus : ℚ) (now : Int) (t : Session) :
    (closeSession bonus now t).sid = t.sid := rfl

theorem endTime_closeSession (bonus : ℚ) (now : Int) (t : Session) :
    (closeSession bonus now t).endTime = some now := rfl

theorem closeSession_closeSession (bonus : ℚ) (now : Int) (t : Session) :
    closeSession bonus now (closeSession bonus now t) = closeSession bonus now t := rfl

theorem bind_eq_of_eq_some {α β : Type} {x : Option α} {a : α} {f : α → Option β}
    (h : x = some a) : (x >>= f) = f a := by
  rw [h]
  rfl

theorem closeInDb_sessions (db : Store) (sessionId : Nat) (now : Int) :
    (closeInDb db sessionId now).sessions = db.sessions.map (fun s =>
      if s.sid == sessionId then closeSession db.streamBonus now s else s) := rfl

theorem inv_closeInDb_inactive {st : TrackerState} {u : String} {sid : Nat} {now : Int}
    (hInv : TrackerInv st) (hlook : dictLookup u st.inactiveSessions = some sid) :
    TrackerInv ⟨closeInDb st.db sid now, st.activeSessions, eraseKey u st.inactiveSessions⟩ := by
  obtain ⟨h1, h2, h3, h4, h5, h6⟩ := hInv
  obtain ⟨s0, hs0mem, hs0sid, hs0user, hs0open, hs0act⟩ := h5 (u, sid) (mem_of_dictLookup hlook)
  have hsidmap : ∀ t : Session,
      (if t.sid == sid then closeSession st.db.streamBonus now t else t).sid = t.sid := by
    intro t
    split <;> rfl
  refine ⟨?_, ?_, ?_, ?_, ?_, ?_⟩
  · intro s' hs'
    rw [closeInDb_sessions] at hs'
    obtain ⟨t, ht, rfl⟩ := List.mem_map.mp hs'
    rw [hsidmap t]
    exact h1 t ht
  · dsimp only
    rw [closeInDb_sessions, List.map_map]
    have hcomp : (Session.sid ∘ fun t =>
        if t.sid == sid then closeSession st.db.streamBonus now t else t) = Session.sid := by
      funext t
      exact hsidmap t
    rw [hcomp]
    exact h2
  · intro p hp
    dsimp only at hp ⊢
    by_cases hpu : p.1 = u
    · rw [hpu, dictLookup_eraseKey_self]
    · rw [dictLookup_eraseKey_ne u p.1 _ hpu]
      exact h3 p hp
  · intro p hp
    dsimp only at hp ⊢
    obtain ⟨s, hsmem, hssid, hsuser, hsopen, hsact⟩ := h4 p hp
    have hne : s.sid ≠ sid := by
      intro he
      have heq : s = s0 := eq_of_nodup_map h2 hsmem hs0mem (by rw [he, hs0sid])
      rw [heq, hs0act] at hsact
      cases hsact
    refine ⟨s, ?_, hssid, hsuser, hsopen, hsact⟩
    rw [closeInDb_sessions]
    refine List.mem_map.mpr ⟨s, hsmem, ?_⟩
    simp [hne]
  · intro p hp
    dsimp only at hp ⊢
    obtain ⟨hpmem, hpu⟩ := mem_eraseKey.mp hp
    obtain ⟨s, hsmem, hssid, hsuser, hsopen, hsact⟩ := h5 p hpmem
    have hne : s.sid ≠ sid := by
      intro he
      have heq : s = s0 := eq_of_nodup_map h2 hsmem hs0mem (by rw [he, hs0sid])
      apply hpu
      rw [← hsuser, heq, hs0user]
    refine ⟨s, ?_, hssid, hsuser, hsopen, hsact⟩
    rw [closeInDb_sessions]
    refine List.mem_map.mpr ⟨s, hsmem, ?_⟩
    simp [hne]
  · intro s' hs' hopen
    dsimp only at hs' ⊢
    rw [closeInDb_sessions] at hs'
    obtain ⟨t, ht, rfl⟩ := List.mem_map.mp hs'
    by_cases hc : t.sid = sid
    · exfalso
      simp [hc, closeSession] at hopen
    · have hupd : (if t.sid == sid then closeSession st.db.streamBonus now t else t) = t := by
        simp [hc]
      rw [hupd] at hopen ⊢
      obtain ⟨hA, hI⟩ := h6 t ht hopen
      refine ⟨hA, ?_⟩
      intro hact
      have htu : t.userId ≠ u := by
        intro he
        have h7 := hI hact
        rw [he, hlook] at h7
        exact hc (Option.some.inj h7).symm
      rw [dictLookup_eraseKey_ne u t.userId _ htu]
      exact hI hact

theorem inv_closeInDb_active {st : TrackerState} {u : String} {sid : Nat} {now : Int}
    (hInv : TrackerInv st) (hlook : dictLookup u st.activeSessions = some sid) :
    TrackerInv ⟨closeInDb st.db sid now, eraseKey u st.activeSessions, st.inactiveSessions⟩ := by
  obtain ⟨h1, h2, h3, h4, h5, h6⟩ := hInv
  obtain ⟨s0, hs0mem, hs0sid, hs0user, hs0open, hs0act⟩ := h4 (u, sid) (mem_of_dictLookup hlook)
  have hsidmap : ∀ t : Session,
      (if t.sid == sid then closeSession st.db.streamBonus now t else t).sid = t.sid := by
    intro t
    split <;> rfl
  refine ⟨?_, ?_, ?_, ?_, ?_, ?_⟩
  · intro s' hs'
    rw [closeInDb_sessions] at hs'
    obtain ⟨t, ht, rfl⟩ := List.mem_map.mp hs'
    rw [hsidmap t]
    exact h1 t ht
  · dsimp only
    rw [closeInDb_sessions, List.map_map]
    have hcomp : (Session.sid ∘ fun t =>
        if t.sid == sid then closeSession st.db.streamBonus now t else t) = Session.sid := by
      funext t
      exact hsidmap t
    rw [hcomp]
    exact h2
  · intro p hp
    dsimp only at hp ⊢
    exact h3 p (mem_eraseKey.mp hp).1
  · intro p hp
    dsimp only at hp ⊢
    obtain ⟨hpmem, hpu⟩ := mem_eraseKey.mp hp
    obtain ⟨s, hsmem, hssid, hsuser, hsopen, hsact⟩ := h4 p hpmem
    have hne : s.sid ≠ sid := by
      intro he
      have heq : s = s0 := eq_of_nodup_map h2 hsmem hs0mem (by rw [he, hs0sid])
      apply hpu
      rw [← hsuser, heq, hs0user]
    refine ⟨s, ?_, hssid, hsuser, hsopen, hsact⟩
    rw [closeInDb_sessions]
    refine List.mem_map.mpr ⟨s, hsmem, ?_⟩
    simp [hne]
  · intro p hp
    dsimp only at hp ⊢
    obtain ⟨s, hsmem, hssid, hsuser, hsopen, hsact⟩ := h5 p hp
    have hne : s.sid ≠ sid := by
      intro he
      have heq : s = s0 := eq_of_nodup_map h2 hsmem hs0mem (by rw [he, hs0sid])
      rw [heq, hs0act] at hsact
      cases hsact
    refine ⟨s, ?_, hssid, hsuser, hsopen, hsact⟩
    rw [closeInDb_sessions]
    refine List.mem_map.mpr ⟨s, hsmem, ?_⟩
    simp [hne]
  · intro s' hs' hopen
    dsimp only at hs' ⊢
    rw [closeInDb_sessions] at hs'
    obtain ⟨t, ht, rfl⟩ := List.mem_map.mp hs'
    by_cases hc : t.sid = sid
    · exfalso
      simp [hc, closeSession] at hopen
    · have hupd : (if t.sid == sid then closeSession st.db.streamBonus now t else t) = t := by
        simp [hc]
      rw [hupd] at hopen ⊢
      obtain ⟨hA, hI⟩ := h6 t ht hopen
      refine ⟨?_, hI⟩
      intro hact
      have htu : t.userId ≠ u := by
        intro he
        have h7 := hA hact
        rw [he, hlook] at h7
        exact hc (Option.some.inj h7).symm
      rw [dictLookup_eraseKey_ne u t.userId _ htu]
      exact hA hact

theorem end_inactive_close {st : TrackerState} {u : String} {sid : Nat} {now : Int}
    (hInv : TrackerInv st) (hlook : dictLookup u st.inactiveSessions = some sid) :
    end_inactive_session st u now =
      some ⟨closeInDb st.db sid now, st.activeSessions, eraseKey u st.inactiveSessions⟩ := by
  obtain ⟨h1, h2, h3, h4, h5, h6⟩ := hInv
  obtain ⟨s0, hs0mem, hs0sid, hs0user, hs0open, hs0act⟩ := h5 (u, sid) (mem_of_dictLookup hlook)
  simp only [end_inactive_session, hlook, end_session_eq_some hs0mem hs0sid, Option.map_some']

theorem end_active_close {st : TrackerState} {u : String} {sid : Nat} {now : Int}
    (hInv : TrackerInv st) (hlook : dictLookup u st.activeSessions = some sid) :
    end_active_session st u now =
      some ⟨closeInDb st.db sid now, eraseKey u st.activeSessions, st.inactiveSessions⟩ := by
  obtain ⟨h1, h2, h3, h4, h5, h6⟩ := hInv
  obtain ⟨s0, hs0mem, hs0sid, hs0user, hs0open, hs0act⟩ := h4 (u, sid) (mem_of_dictLookup hlook)
  simp only [end_active_session, hlook, end_session_eq_some hs0mem hs0sid, Option.map_some']

theorem inv_end_inactive {st st' : TrackerState} {u : String} {now : Int}
    (hInv : TrackerInv st) (h : end_inactive_session st u now = some st') : TrackerInv st' := by
  cases hlook : dictLookup u st.inactiveSessions with
  | none =>
    simp only [end_inactive_session, hlook] at h
    obtain rfl := Option.some.inj h
    exact hInv
  | some sid =>
    rw [end_inactive_close hInv hlook] at h
    obtain rfl := Option.some.inj h
    exact inv_closeInDb_inactive hInv hlook

theorem inv_end_active {st st' : TrackerState} {u : String} {now : Int}
    (hInv : TrackerInv st) (h : end_active_session st u now = some st') : TrackerInv st' := by
  cases hlook : dictLookup u st.activeSessions with
  | none =>
    simp only [end_active_session, hlook] at h
    obtain rfl := Option.some.inj h
    exact hInv
  | some sid =>
    rw [end_active_close hInv hlook] at h
    obtain rfl := Option.some.inj h
    exact inv_closeInDb_active hInv hlook

theorem inv_end_all {st st' : TrackerState} {u : String} {now : Int}
    (hInv : TrackerInv st) (h : end_all_sessions st u now = some st') : TrackerInv st' := by
  simp only [end_all_sessions] at h
  cases h1 : end_active_session st u now with
  | none =>
    rw [h1] at h
    cases h
  | some st1 =>
    rw [bind_eq_of_eq_some h1] at h
    exact inv_end_inactive (inv_end_active hInv h1) h

theorem inv_start_append_active {st1 : TrackerState} {m : Member} {now : Int}
    (hInv : TrackerInv st1)
    (hA : dictLookup m.userId st1.activeSessions = none)
    (hI : dictLookup m.userId st1.inactiveSessions = none) :
    TrackerInv ⟨(start_session st1.db m.userId m.guildId (m.channelId.getD "")
        m.username m.guildName m.channelName now true false).1,
      (m.userId, st1.db.nextId) :: st1.activeSessions, st1.inactiveSessions⟩ := by
  obtain ⟨h1, h2, h3, h4, h5, h6⟩ := hInv
  refine ⟨?_, ?_, ?_, ?_, ?_, ?_⟩
  · intro s' hs'
    dsimp only [start_session] at hs' ⊢
    rcases List.mem_append.mp hs' with ht | ht
    · exact Nat.lt_succ_of_lt (h1 s' ht)
    · rw [List.mem_singleton.mp ht]
      exact Nat.lt_succ_self _
  · dsimp only [start_session]
    rw [List.map_append, List.nodup_append]
    refine ⟨h2, List.nodup_singleton _, ?_⟩
    intro a ha hb
    obtain ⟨t, ht, rfl⟩ := List.mem_map.mp ha
    rw [List.map_singleton, List.mem_singleton] at hb
    exact absurd (hb ▸ h1 t ht) (lt_irrefl _)
  · intro p hp
    dsimp only at hp ⊢
    rcases List.mem_cons.mp hp with rfl | hp2
    · exact hI
    · exact h3 p hp2
  · intro p hp
    dsimp only [start_session] at hp ⊢
    rcases List.mem_cons.mp hp with rfl | hp2
    · exact ⟨_, List.mem_append_right _ (List.mem_singleton_self _), rfl, rfl, rfl, rfl⟩
    · obtain ⟨s, hsmem, hssid, hsuser, hsopen, hsact⟩ := h4 p hp2
      exact ⟨s, List.mem_append_left _ hsmem, hssid, hsuser, hsopen, hsact⟩
  · intro p hp
    dsimp only [start_session] at hp ⊢
    obtain ⟨s, hsmem, hssid, hsuser, hsopen, hsact⟩ := h5 p hp
    exact ⟨s, List.mem_append_left _ hsmem, hssid, hsuser, hsopen, hsact⟩
  · intro s' hs' hopen
    dsimp only [start_session] at hs' ⊢
    rcases List.mem_append.mp hs' with ht | ht
    · obtain ⟨hAt, hIt⟩ := h6 s' ht hopen
      constructor
      · intro htrue
        have hne : m.userId ≠ s'.userId := by
          intro he
          have h7 := hAt htrue
          rw [← he, hA] at h7
          cases h7
        simp only [dictLookup]
        rw [if_neg hne]
        exact hAt htrue
      · exact hIt
    · rw [List.mem_singleton.mp ht]
      constructor
      · intro _
        simp [dictLookup]
      · intro hfalse
        cases hfalse

theorem inv_start_append_inactive {st1 : TrackerState} {m : Member} {now : Int}
    (hInv : TrackerInv st1)
    (hA : dictLookup m.userId st1.activeSessions = none)
    (hI : dictLookup m.userId st1.inactiveSessions = none) :
    TrackerInv ⟨(start_session st1.db m.userId m.guildId (m.channelId.getD "")
        m.username m.guildName m.channelName now false false).1,
      st1.activeSessions, (m.userId, st1.db.nextId) :: st1.inactiveSessions⟩ := by
  obtain ⟨h1, h2, h3, h4, h5, h6⟩ := hInv
  refine ⟨?_, ?_, ?_, ?_, ?_, ?_⟩
  · intro s' hs'
    dsimp only [start_session] at hs' ⊢
    rcases List.mem_append.mp hs' with ht | ht
    · exact Nat.lt_succ_of_lt (h1 s' ht)
    · rw [List.mem_singleton.mp ht]
      exact Nat.lt_succ_self _
  · dsimp only [start_session]
    rw [List.map_append, List.nodup_append]
    refine ⟨h2, List.nodup_singleton _, ?_⟩
    intro a ha hb
    obtain ⟨t, ht, rfl⟩ := List.mem_map.mp ha
    rw [List.map_singleton, List.mem_singleton] at hb
    exact absurd (hb ▸ h1 t ht) (lt_irrefl _)
  · intro p hp
    dsimp only at hp ⊢
    by_cases hpu : p.1 = m.userId
    · exfalso
      obtain ⟨s, hsmem, hssid, hsuser, hsopen, hsact⟩ := h4 p hp
      obtain ⟨hAt, hIt⟩ := h6 s hsmem hsopen
      have h7 := hAt hsact
      rw [hsuser, hpu, hA] at h7
      cases h7
    · simp only [dictLookup]
      rw [if_neg (fun he => hpu he.symm)]
      exact h3 p hp
  · intro p hp
    dsimp only [start_session] at hp ⊢
    obtain ⟨s, hsmem, hssid, hsuser, hsopen, hsact⟩ := h4 p hp
    exact ⟨s, List.mem_append_left _ hsmem, hssid, hsuser, hsopen, hsact⟩
  · intro p hp
    dsimp only [start_session] at hp ⊢
    rcases List.mem_cons.mp hp with rfl | hp2
    · exact ⟨_, List.mem_append_right _ (List.mem_singleton_self _), rfl, rfl, rfl, rfl⟩
    · obtain ⟨s, hsmem, hssid, hsuser, hsopen, hsact⟩ := h5 p hp2
      exact ⟨s, List.mem_append_left _ hsmem, hssid, hsuser, hsopen, hsact⟩
  · intro s' hs' hopen
    dsimp only [start_session] at hs' ⊢
    rcases List.mem_append.mp hs' with ht | ht
    · obtain ⟨hAt, hIt⟩ := h6 s' ht hopen
      constructor
      · exact hAt
      · intro hfalse
        have hne : m.userId ≠ s'.userId := by
          intro he
          have h7 := hIt hfalse
          rw [← he, hI] at h7
          cases h7
        simp only [dictLookup]
        rw [if_neg hne]
        exact hIt hfalse
    · rw [List.mem_singleton.mp ht]
      constructor
      · intro htrue
        cases htrue
      · intro _
        simp [dictLookup]

theorem inv_start_active {st st' : TrackerState} {m : Member} {now : Int}
    (hInv : TrackerInv st) (h : start_active_session st m now = some st') : TrackerInv st' := by
  rw [start_active_session] at h
  by_cases hg : ((dictLookup m.userId st.activeSessions).isNone && is_user_active m) = true
  · rw [if_pos hg] at h
    have hA : dictLookup m.userId st.activeSessions = none := by
      rw [Bool.and_eq_true] at hg
      exact Option.isNone_iff_eq_none.mp hg.1
    cases hlookI : dictLookup m.userId st.inactiveSessions with
    | some sid =>
      have hc2 : (dictLookup m.userId st.inactiveSessions).isSome = true := by
        rw [hlookI]
        rfl
      rw [if_pos hc2] at h
      rw [bind_eq_of_eq_some (end_inactive_close hInv hlookI)] at h
      obtain rfl := Option.some.inj h
      exact inv_start_append_active (inv_closeInDb_inactive hInv hlookI)
        (by dsimp only; exact hA) (by dsimp only; exact dictLookup_eraseKey_self _ _)
    | none =>
      have hc2 : ¬ (dictLookup m.userId st.inactiveSessions).isSome = true := by
        rw [hlookI]
        simp
      rw [if_neg hc2] at h
      rw [bind_eq_of_eq_some (rfl : (pure st : Option TrackerState) = some st)] at h
      obtain rfl := Option.some.inj h
      exact inv_start_append_active hInv hA hlookI
  · rw [if_neg hg] at h
    obtain rfl := Option.some.inj h
    exact hInv

theorem inv_start_inactive {st st' : TrackerState} {m : Member} {now : Int}
    (hInv : TrackerInv st) (h : start_inactive_session st m now = some st') : TrackerInv st' := by
  rw [start_inactive_session] at h
  by_cases hg : ((dictLookup m.userId st.inactiveSessions).isNone && m.channelId.isSome) = true
  · rw [if_pos hg] at h
    have hI : dictLookup m.userId st.inactiveSessions = none := by
      rw [Bool.and_eq_true] at hg
      exact Option.isNone_iff_eq_none.mp hg.1
    cases hlookA : dictLookup m.userId st.activeSessions with
    | some sid =>
      have hc2 : (dictLookup m.userId st.activeSessions).isSome = true := by
        rw [hlookA]
        rfl
      rw [if_pos hc2] at h
      rw [bind_eq_of_eq_some (end_active_close hInv hlookA)] at h
      obtain rfl := Option.some.inj h
      exact inv_start_append_inactive (inv_closeInDb_active hInv hlookA)
        (by dsimp only; exact dictLookup_eraseKey_self _ _) (by dsimp only; exact hI)
    | none =>
      have hc2 : ¬ (dictLookup m.userId st.activeSessions).isSome = true := by
        rw [hlookA]
        simp
      rw [if_neg hc2] at h
      rw [bind_eq_of_eq_some (rfl : (pure st : Option TrackerState) = some st)] at h
      obtain rfl := Option.some.inj h
      exact inv_start_append_inactive hInv hlookA hI
  · rw [if_neg hg] at h
    obtain rfl := Option.some.inj h
    exact hInv

theorem closeManyUpd_sid (bonus : ℚ) (l : List (String × Nat)) (now : Int) (t : Session) :
    (closeManyUpd bonus l now t).sid = t.sid := by
  rw [closeManyUpd]
  split <;> rfl

theorem closeManyUpd_cons (bonus : ℚ) (p : String × Nat) (rest : List (String × Nat))
    (now : Int) (t : Session) :
    closeManyUpd bonus rest now (if t.sid == p.2 then closeSession bonus now t else t)
      = closeManyUpd bonus (p :: rest) now t := by
  by_cases h1 : t.sid = p.2
  · rw [if_pos (by simp [h1])]
    simp only [closeManyUpd, sid_closeSession, List.any_cons]
    have hp2 : (p.2 == t.sid) = true := by simp [h1]
    simp only [hp2, Bool.true_or]
    split
    · exact closeSession_closeSession bonus now t
    · rfl
  · rw [if_neg (by simp [h1])]
    simp only [closeManyUpd, List.any_cons]
    have hp2 : (p.2 == t.sid) = false := by
      simp only [beq_eq_false_iff_ne, ne_eq]
      exact fun he => h1 he.symm
    simp only [hp2, Bool.false_or]

theorem end_sessions_list_eq_some {db : Store} {l : List (String × Nat)} {now : Int}
    (h : ∀ p ∈ l, ∃ s ∈ db.sessions, s.sid = p.2) :
    end_sessions_list db l now =
      some { db with sessions := db.sessions.map (closeManyUpd db.streamBonus l now) } := by
  induction l generalizing db with
  | nil =>
    have hfun : closeManyUpd db.streamBonus [] now = fun t => t := by
      funext t
      simp [closeManyUpd]
    rw [end_sessions_list, hfun, List.map_id']
  | cons p rest ih =>
    obtain ⟨s0, hs0, hsid⟩ := h p (List.mem_cons_self _ _)
    have hstep : end_sessions_list db (p :: rest) now
        = end_sessions_list (closeInDb db p.2 now) rest now := by
      rw [end_sessions_list, end_session_eq_some hs0 hsid]
    have hrest : ∀ q ∈ rest, ∃ s ∈ (closeInDb db p.2 now).sessions, s.sid = q.2 := by
      intro q hq
      obtain ⟨s, hsmem, hss⟩ := h q (List.mem_cons_of_mem _ hq)
      rw [closeInDb_sessions]
      refine ⟨_, List.mem_map_of_mem _ hsmem, ?_⟩
      have : (if s.sid == p.2 then closeSession db.streamBonus now s else s).sid = s.sid := by
        split <;> rfl
      rw [this]
      exact hss
    have hsess : ((closeInDb db p.2 now).sessions.map
          (closeManyUpd (closeInDb db p.2 now).streamBonus rest now))
        = db.sessions.map (closeManyUpd db.streamBonus (p :: rest) now) := by
      rw [closeInDb_sessions, List.map_map]
      refine List.map_congr_left ?_
      intro t _
      exact closeManyUpd_cons db.streamBonus p rest now t
    rw [hstep, ih hrest, hsess]
    rfl

theorem daily_reset_spec {st : TrackerState} {now : Int} (hInv : TrackerInv st) :
    ∃ st', daily_reset st now = some st' ∧
      st'.activeSessions = [] ∧ st'.inactiveSessions = [] ∧
      st'.db.backups = st.db.backups ∧
      (∀ s ∈ st'.db.sessions, s.endTime ≠ none) ∧
      (∀ s ∈ st'.db.sessions, ¬ dateOf s.startTime < dateOf (now - ((30 : Nat) : Int) * 86400)) ∧
      (st'.db.sessions.map Session.sid).Nodup ∧
      (∀ s ∈ st'.db.sessions, s.sid < st'.db.nextId) := by
  obtain ⟨h1, h2, h3, h4, h5, h6⟩ := hInv
  have hact : ∀ p ∈ st.activeSessions, ∃ s ∈ st.db.sessions, s.sid = p.2 := by
    intro p hp
    obtain ⟨s, hsmem, hssid, _⟩ := h4 p hp
    exact ⟨s, hsmem, hssid⟩
  obtain ⟨db1v, e1, hsa, hba, hna, hka⟩ :
      ∃ d, end_sessions_list st.db st.activeSessions now = some d ∧
        d.sessions = st.db.sessions.map (closeManyUpd st.db.streamBonus st.activeSessions now) ∧
        d.streamBonus = st.db.streamBonus ∧ d.nextId = st.db.nextId ∧ d.backups = st.db.backups :=
    ⟨_, end_sessions_list_eq_some hact, rfl, rfl, rfl, rfl⟩
  have hinact : ∀ p ∈ st.inactiveSessions, ∃ s ∈ db1v.sessions, s.sid = p.2 := by
    intro p hp
    obtain ⟨s, hsmem, hssid, _⟩ := h5 p hp
    rw [hsa]
    exact ⟨_, List.mem_map_of_mem _ hsmem, by rw [closeManyUpd_sid]; exact hssid⟩
  obtain ⟨db2v, e2, hsb, hbb, hnb, hkb⟩ :
      ∃ d, end_sessions_list db1v st.inactiveSessions now = some d ∧
        d.sessions = db1v.sessions.map (closeManyUpd db1v.streamBonus st.inactiveSessions now) ∧
        d.streamBonus = db1v.streamBonus ∧ d.nextId = db1v.nextId ∧ d.backups = db1v.backups :=
    ⟨_, end_sessions_list_eq_some hinact, rfl, rfl, rfl, rfl⟩
  have hrun : daily_reset st now = some ⟨cleanup_old_data db2v 30 now, [], []⟩ := by
    rw [daily_reset, bind_eq_of_eq_some e1, bind_eq_of_eq_some e2]
    rfl
  have hcsess : (cleanup_old_data db2v 30 now).sessions
      = db2v.sessions.filter (fun s =>
          !(decide (dateOf s.startTime < dateOf (now - ((30 : Nat) : Int) * 86400)))) := rfl
  refine ⟨_, hrun, rfl, rfl, ?_, ?_, ?_, ?_, ?_⟩
  · show (cleanup_old_data db2v 30 now).backups = st.db.backups
    calc (cleanup_old_data db2v 30 now).backups = db2v.backups := rfl
      _ = db1v.backups := hkb
      _ = st.db.backups := hka
  · intro s hs hnone
    dsimp only at hs
    rw [hcsess] at hs
    have hmem : s ∈ db2v.sessions := (List.mem_filter.mp hs).1
    rw [hsb] at hmem
    obtain ⟨y, hy, rfl⟩ := List.mem_map.mp hmem
    rw [hsa] at hy
    obtain ⟨t, ht, rfl⟩ := List.mem_map.mp hy
    by_cases hI2 : st.inactiveSessions.any
        (fun p => p.2 == (closeManyUpd st.db.streamBonus st.activeSessions now t).sid) = true
    · rw [closeManyUpd, if_pos hI2] at hnone
      simp [closeSession] at hnone
    · rw [closeManyUpd, if_neg hI2] at hnone
      by_cases hA2 : st.activeSessions.any (fun p => p.2 == t.sid) = true
      · rw [closeManyUpd, if_pos hA2] at hnone
        simp [closeSession] at hnone
      · rw [closeManyUpd, if_neg hA2] at hnone
        obtain ⟨hAt, hIt⟩ := h6 t ht hnone
        cases hb : t.isActive
        · have hmem2 := mem_of_dictLookup (hIt hb)
          apply hI2
          rw [List.any_eq_true]
          refine ⟨(t.userId, t.sid), hmem2, ?_⟩
          rw [closeManyUpd_sid]
          simp
        · have hmem2 := mem_of_dictLookup (hAt hb)
          apply hA2
          rw [List.any_eq_true]
          exact ⟨(t.userId, t.sid), hmem2, by simp⟩
  · intro s hs
    dsimp only at hs
    rw [hcsess] at hs
    simpa using (List.mem_filter.mp hs).2
  · dsimp only
    rw [hcsess]
    have hpres : db2v.sessions.map Session.sid = st.db.sessions.map Session.sid := by
      rw [hsb, hsa, List.map_map, List.map_map]
      refine List.map_congr_left ?_
      intro t _
      simp only [Function.comp_apply, closeManyUpd_sid]
    exact List.Nodup.sublist (List.Sublist.map Session.sid (List.filter_sublist _)) (hpres ▸ h2)
  · intro s hs
    dsimp only at hs ⊢
    rw [hcsess] at hs
    have hmem : s ∈ db2v.sessions := (List.mem_filter.mp hs).1
    rw [hsb] at hmem
    obtain ⟨y, hy, rfl⟩ := List.mem_map.mp hmem
    rw [hsa] at hy
    obtain ⟨t, ht, rfl⟩ := List.mem_map.mp hy
    rw [closeManyUpd_sid, closeManyUpd_sid]
    have hnx : (cleanup_old_data db2v 30 now).nextId = st.db.nextId := by
      calc (cleanup_old_data db2v 30 now).nextId = db2v.nextId := rfl
        _ = db1v.nextId := hnb
        _ = st.db.nextId := hna
    rw [hnx]
    exact h1 t ht

theorem inv_daily_reset {st st' : TrackerState} {now : Int}
    (hInv : TrackerInv st) (h : daily_reset st now = some st') : TrackerInv st' := by
  obtain ⟨st2, hrun, hac, hic, hback, hclosed, hret, hnodup, hfresh⟩ :=
    @daily_reset_spec st now hInv
  rw [hrun] at h
  obtain rfl := Option.some.inj h
  refine ⟨hfresh, hnodup, ?_, ?_, ?_, ?_⟩
  · intro p hp
    rw [hac] at hp
    cases hp
  · intro p hp
    rw [hac] at hp
    cases hp
  · intro p hp
    rw [hic] at hp
    cases hp
  · intro s hs hopen
    exact absurd hopen (hclosed s hs)

theorem step_inv {st st' : TrackerState} {op : Op}
    (hInv : TrackerInv st) (h : step st op = some st') : TrackerInv st' := by
  cases op with
  | startActive m t => exact inv_start_active hInv h
  | startInactive m t => exact inv_start_inactive hInv h
  | endActive m t => exact inv_end_active hInv h
  | endInactive m t => exact inv_end_inactive hInv h
  | endAll m t => exact inv_end_all hInv h
  | dailyReset t => exact inv_daily_reset hInv h

theorem inv_initState : TrackerInv initState := by
  refine ⟨?_, ?_, ?_, ?_, ?_, ?_⟩ <;> simp [initState, emptyStore]

theorem foldlM_step_inv {ops : List Op} {st0 st : TrackerState}
    (h0 : TrackerInv st0) (h : ops.foldlM step st0 = some st) : TrackerInv st := by
  induction ops generalizing st0 with
  | nil =>
    rw [List.foldlM_nil] at h
    obtain rfl := Option.some.inj h
    exact h0
  | cons op rest ih =>
    rw [List.foldlM_cons] at h
    cases hs : step st0 op with
    | none =>
      rw [hs] at h
      cases h
    | some mid =>
      rw [bind_eq_of_eq_some hs] at h
      exact ih (step_inv h0 hs) h

theorem run_inv {ops : List Op} {st : TrackerState} (h : run ops = some st) : TrackerInv st :=
  foldlM_step_inv inv_initState h

/-- C2: the classifier is a pure function of connectivity, the
mute flags and the presence status, and `is_user_active` returns
`true` exactly when the spec's ordered rule (not connected means
Disconnected; muted means Inactive; idle, invisible or offline
means Inactive; otherwise Active) yields `Active`. -/
theorem c2_classifier_matches_rule (m : Member) :
    is_user_active m = true ↔
      classify m.channelId.isSome m.selfMute m.serverMute m.status = Classification.Active := by
  obtain ⟨u, g, ch, sm, mm, stt, n1, n2, n3⟩ := m
  cases ch <;> cases sm <;> cases mm <;> cases stt <;>
    simp [is_user_active, classify]

/-- C1: after any sequence of session-tracking operations from a
fresh start, at most one session per user (hence at most one per
(user, guild), and at most one of each classification) is open in
the store, and the active and inactive dictionaries never both
hold an entry for the same user. -/
theorem c1_at_most_one_open_session (ops : List Op) (st : TrackerState)
    (h : run ops = some st) :
    (∀ s1 ∈ st.db.sessions, ∀ s2 ∈ st.db.sessions,
      s1.endTime = none → s2.endTime = none → s1.userId = s2.userId → s1 = s2) ∧
    (∀ p ∈ st.activeSessions, dictLookup p.1 st.inactiveSessions = none) ∧
    (∀ p ∈ st.inactiveSessions, dictLookup p.1 st.activeSessions = none) := by
  obtain ⟨h1, h2, h3, h4, h5, h6⟩ := run_inv h
  refine ⟨?_, h3, ?_⟩
  · intro s1 hs1 s2 hs2 ho1 ho2 huser
    obtain ⟨hA1, hI1⟩ := h6 s1 hs1 ho1
    obtain ⟨hA2, hI2⟩ := h6 s2 hs2 ho2
    cases hb1 : s1.isActive <;> cases hb2 : s2.isActive
    · have e1 := hI1 hb1
      have e2 := hI2 hb2
      rw [huser] at e1
      exact eq_of_nodup_map h2 hs1 hs2 (Option.some.inj (e1.symm.trans e2))
    · exfalso
      have e1 := hI1 hb1
      have e2 := hA2 hb2
      have h9 := h3 _ (mem_of_dictLookup e2)
      rw [← huser] at h9
      rw [h9] at e1
      cases e1
    · exfalso
      have e1 := hA1 hb1
      have e2 := hI2 hb2
      have h9 := h3 _ (mem_of_dictLookup e1)
      rw [huser] at h9
      rw [h9] at e2
      cases e2
    · have e1 := hA1 hb1
      have e2 := hA2 hb2
      rw [huser] at e1
      exact eq_of_nodup_map h2 hs1 hs2 (Option.some.inj (e1.symm.trans e2))
  · intro p hp
    cases hl : dictLookup p.1 st.activeSessions with
    | none => rfl
    | some sid =>
      exfalso
      have h9 := h3 _ (mem_of_dictLookup hl)
      rw [dictLookup_eq_none_iff] at h9
      exact h9 p hp rfl


/-- Witness for C1 at a concrete run: the hypothesis holds and
the user with the open inactive session has no active entry. -/
theorem c1_witness :
    run c1_ops = some c1_state ∧ dictLookup "a" c1_state.activeSessions = none :=
  ⟨by decide, (c1_at_most_one_open_session c1_ops c1_state (by decide)).2.2 ("a", 1) (by decide)⟩

/-- C3: starting a session is idempotent and ending one is total.
With a session of a classification already tracked as open for
the user, a second begin of that classification is a no-op (the
state is unchanged, no second session is created) and exactly one
open session of that classification exists in the store; an end
for a classification with no tracked open session is a no-op and
not an error. -/
theorem c3_idempotent_begin_total_end (st : TrackerState) (m : Member) (now : Int)
    (hInv : TrackerInv st) :
    ((dictLookup m.userId st.activeSessions).isSome →
      start_active_session st m now = some st ∧
      (open_sessions_for st.db m.userId true).length = 1) ∧
    ((dictLookup m.userId st.inactiveSessions).isSome →
      start_inactive_session st m now = some st ∧
      (open_sessions_for st.db m.userId false).length = 1) ∧
    (dictLookup m.userId st.activeSessions = none →
      end_active_session st m.userId now = some st) ∧
    (dictLookup m.userId st.inactiveSessions = none →
      end_inactive_session st m.userId now = some st) := by
  obtain ⟨h1, h2, h3, h4, h5, h6⟩ := hInv
  have hnodup : st.db.sessions.Nodup := List.Nodup.of_map Session.sid h2
  refine ⟨?_, ?_, ?_, ?_⟩
  · intro hsome
    constructor
    · have hng : ¬ ((dictLookup m.userId st.activeSessions).isNone && is_user_active m) = true := by
        intro hc
        rw [Bool.and_eq_true, Option.isNone_iff_eq_none] at hc
        rw [hc.1] at hsome
        cases hsome
      rw [start_active_session, if_neg hng]
      rfl
    · obtain ⟨sid, hsid⟩ := Option.isSome_iff_exists.mp hsome
      obtain ⟨s0, hs0mem, hs0sid, hs0user, hs0open, hs0act⟩ :=
        h4 (m.userId, sid) (mem_of_dictLookup hsid)
      have hmem : s0 ∈ open_sessions_for st.db m.userId true := by
        rw [open_sessions_for, List.mem_filter]
        exact ⟨hs0mem, by simp [hs0user, hs0act, hs0open]⟩
      refine length_eq_one_of_nodup
        (List.Nodup.sublist (List.filter_sublist _) hnodup) hmem ?_
      intro b hb
      rw [open_sessions_for, List.mem_filter] at hb
      obtain ⟨hbmem, hbcond⟩ := hb
      simp only [Bool.and_eq_true, beq_iff_eq, Option.isNone_iff_eq_none, beq_true] at hbcond
      obtain ⟨⟨hbuser, hbact⟩, hbopen⟩ := hbcond
      obtain ⟨hAb, hIb⟩ := h6 b hbmem hbopen
      have e1 := hAb hbact
      rw [hbuser, hsid] at e1
      have e2 : b.sid = s0.sid := by
        rw [hs0sid]
        exact (Option.some.inj e1).symm
      exact eq_of_nodup_map h2 hbmem hs0mem e2
  · intro hsome
    constructor
    · have hng : ¬ ((dictLookup m.userId st.inactiveSessions).isNone && m.channelId.isSome) = true := by
        intro hc
        rw [Bool.and_eq_true, Option.isNone_iff_eq_none] at hc
        rw [hc.1] at hsome
        cases hsome
      rw [start_inactive_session, if_neg hng]
      rfl
    · obtain ⟨sid, hsid⟩ := Option.isSome_iff_exists.mp hsome
      obtain ⟨s0, hs0mem, hs0sid, hs0user, hs0open, hs0act⟩ :=
        h5 (m.userId, sid) (mem_of_dictLookup hsid)
      have hmem : s0 ∈ open_sessions_for st.db m.userId false := by
        rw [open_sessions_for, List.mem_filter]
        exact ⟨hs0mem, by simp [hs0user, hs0act, hs0open]⟩
      refine length_eq_one_of_nodup
        (List.Nodup.sublist (List.filter_sublist _) hnodup) hmem ?_
      intro b hb
      rw [open_sessions_for, List.mem_filter] at hb
      obtain ⟨hbmem, hbcond⟩ := hb
      simp only [Bool.and_eq_true, beq_iff_eq, Option.isNone_iff_eq_none, beq_false] at hbcond
      obtain ⟨⟨hbuser, hbact⟩, hbopen⟩ := hbcond
      obtain ⟨hAb, hIb⟩ := h6 b hbmem hbopen
      have e1 := hIb (by simpa using hbact)
      rw [hbuser, hsid] at e1
      have e2 : b.sid = s0.sid := by
        rw [hs0sid]
        exact (Option.some.inj e1).symm
      exact eq_of_nodup_map h2 hbmem hs0mem e2
  · intro hnone
    simp only [end_active_session, hnone]
  · intro hnone
    simp only [end_inactive_session, hnone]

/-- Witness for C3: in the reachable state `c1_state`, user "a"
has an open inactive session; a repeated inactive begin is a
no-op with exactly one open inactive session, and an active end
with no open active session is a no-op. -/
theorem c3_witness :
    TrackerInv c1_state ∧
    start_inactive_session c1_state c1_memberMuted 150 = some c1_state ∧
    (open_sessions_for c1_state.db "a" false).length = 1 ∧
    end_active_session c1_state "a" 150 = some c1_state := by
  have h := c3_idempotent_begin_total_end c1_state c1_memberMuted 150 (by decide)
  exact ⟨by decide, (h.2.1 (by decide)).1, (h.2.1 (by decide)).2, h.2.2.1 (by decide)⟩

/-- C5 (amended): when a session is closed at a wall-clock time
earlier than its start time, the stored duration is exactly
`end_time - start_time`, which is negative, and it is not clamped
to zero: a closed session can carry `duration_seconds < 0`. -/
theorem c5_amended_negative_duration (db : Store) (sessionId : Nat) (now : Int) (s : Session)
    (hs : s ∈ db.sessions) (hsid : s.sid = sessionId)
    (hlt : now < s.startTime) (hlive : s.isLive = false) :
    ∃ db', end_session db sessionId now = some db' ∧
      ∃ s2 ∈ db'.sessions, s2.sid = s.sid ∧ s2.endTime = some now ∧
        s2.durationSeconds = some ((now - s.startTime : Int) : ℚ) ∧
        ((now - s.startTime : Int) : ℚ) < 0 := by
  refine ⟨closeInDb db sessionId now, end_session_eq_some hs hsid, ?_⟩
  refine ⟨closeSession db.streamBonus now s, ?_, rfl, rfl, ?_, ?_⟩
  · rw [closeInDb_sessions]
    refine List.mem_map.mpr ⟨s, hs, ?_⟩
    simp [hsid]
  · simp [closeSession, hlive]
  · have h0 : (now - s.startTime : Int) < 0 := by omega
    exact_mod_cast h0

/-- Counterexample for C5 as stated: closing the session that
started at 100 at time 40 stores the negative duration -60; no
clamping to zero happens. -/
theorem c5_counterexample :
    (end_session c5_store 0 40).map (fun db => db.sessions.map Session.durationSeconds)
      = some [some ((-60 : Int) : ℚ)] ∧ ((-60 : Int) : ℚ) < 0 := by
  constructor
  · decide
  · decide

/-- Witness for C5 (amended) at the concrete store. -/
theorem c5_witness :
    ∃ db', end_session c5_store 0 40 = some db' ∧
      ∃ s2 ∈ db'.sessions, s2.sid = c5_session.sid ∧ s2.endTime = some 40 ∧
        s2.durationSeconds = some ((40 - c5_session.startTime : Int) : ℚ) ∧
        ((40 - c5_session.startTime : Int) : ℚ) < 0 :=
  c5_amended_negative_duration c5_store 0 40 c5_session (by decide) (by decide)
    (by decide) (by decide)

/-- C7 (amended): a close for an unknown session id raises
`VoiceSession.DoesNotExist` (modelled as `none`) instead of being
a no-op, and a close for an already-closed id overwrites the
row's `end_time` from the current clock instead of leaving the
closed session unchanged. -/
theorem c7_amended_close_unknown_or_closed (db : Store) (sessionId : Nat) (now : Int) :
    ((∀ s ∈ db.sessions, s.sid ≠ sessionId) → end_session db sessionId now = none) ∧
    (∀ s ∈ db.sessions, s.sid = sessionId → ∀ e, s.endTime = some e →
      ∃ db', end_session db sessionId now = some db' ∧
        ∃ s2 ∈ db'.sessions, s2.sid = sessionId ∧ s2.endTime = some now) := by
  constructor
  · exact end_session_eq_none
  · intro s hs hsid e hend
    refine ⟨closeInDb db sessionId now, end_session_eq_some hs hsid, ?_⟩
    refine ⟨closeSession db.streamBonus now s, ?_, ?_, rfl⟩
    · rw [closeInDb_sessions]
      refine List.mem_map.mpr ⟨s, hs, ?_⟩
      simp [hsid]
    · rw [sid_closeSession]
      exact hsid

/-- Counterexample for C7 as stated: closing the already-closed
session id 0 at time 99 overwrites its end_time from 10 to 99
(the store changes, so it is not a no-op and the closed session
is not immutable), and closing the unknown id 3 raises instead of
being a no-op. -/
theorem c7_counterexample :
    (end_session c7_store 0 99).map (fun db => db.sessions.map Session.endTime)
      = some [some 99] ∧
    end_session c7_store 3 99 = none := by
  constructor
  · decide
  · decide

/-- Witness for C7 (amended) at the concrete store. -/
theorem c7_witness :
    end_session c7_store 3 99 = none ∧
    (∃ db', end_session c7_store 0 99 = some db' ∧
      ∃ s2 ∈ db'.sessions, s2.sid = 0 ∧ s2.endTime = some 99) := by
  have h1 := c7_amended_close_unknown_or_closed c7_store 3 99
  have h2 := c7_amended_close_unknown_or_closed c7_store 0 99
  exact ⟨h1.1 (by decide), h2.2 c7_session (by decide) (by decide) 10 (by decide)⟩

/-- C8 (amended): when the latest backup artifact is corrupt,
`json.load` raises inside `import_from_json`; the exception
propagates out of the startup task, so initialization aborts and
the live-reconciliation pass (`track_existing_users`) never runs,
for every member list. -/
theorem c8_amended_corrupt_backup_aborts (st : TrackerState) (members : List Member)
    (now : Int) (rest : List Artifact)
    (h : st.db.backups = Artifact.corrupt :: rest) :
    startup st members now = none := by
  have h2 : import_from_json st.db = none := by
    simp only [import_from_json, h]
  simp only [startup, h2]
  rfl

/-- Counterexample for C8 as stated: with a corrupt latest
backup and a connected member, startup returns an error rather
than proceeding with an empty store, so the reconciliation pass
does not run and no member is tracked. -/
theorem c8_counterexample : startup c8_state [c1_member] 0 = none := by
  decide

/-- Witness for C8 (amended) at a different concrete state, with
an older valid backup present behind the corrupt one. -/
theorem c8_witness : startup c8_state2 [c1_memberMuted] 5 = none :=
  c8_amended_corrupt_backup_aborts c8_state2 [c1_memberMuted] 5
    [Artifact.valid { users := [], guilds := [], channels := [], voiceSessions := [] }]
    (by decide)

/-- C6 (amended): a rollover pass force-closes every tracked open
session (in an invariant-satisfying state every open session is
tracked, so afterwards no open session remains in the store),
then deletes every session whose start date is older than the
30-day retention window; no snapshot is persisted: the backup
artifacts afterwards are exactly those from before the pass, and
both dictionaries end empty. -/
theorem c6_amended_rollover (st : TrackerState) (now : Int) (hInv : TrackerInv st) :
    ∃ st', daily_reset st now = some st' ∧
      st'.activeSessions = [] ∧ st'.inactiveSessions = [] ∧
      (∀ s ∈ st'.db.sessions, s.endTime ≠ none) ∧
      (∀ s ∈ st'.db.sessions, ¬ dateOf s.startTime < dateOf (now - ((30 : Nat) : Int) * 86400)) ∧
      st'.db.backups = st.db.backups := by
  obtain ⟨st2, hrun, hac, hic, hback, hclosed, hret, _, _⟩ := daily_reset_spec hInv
  exact ⟨st2, hrun, hac, hic, hclosed, hret, hback⟩

/-- Counterexample for C6 as stated: in the reachable state
`c1_state` a session is open, and the rollover pass at time 86400
leaves the backup artifacts exactly empty: no snapshot is
persisted by `daily_reset`, contrary to step (3) of the claim. -/
theorem c6_counterexample :
    (∃ s ∈ c1_state.db.sessions, s.endTime = none) ∧
    (daily_reset c1_state 86400).map (fun s => s.db.backups) = some [] := by
  constructor
  · decide
  · decide

/-- Witness for C6 (amended) at the concrete reachable state. -/
theorem c6_witness :
    ∃ st', daily_reset c1_state 200000 = some st' ∧
      st'.activeSessions = [] ∧ st'.inactiveSessions = [] ∧
      (∀ s ∈ st'.db.sessions, s.endTime ≠ none) ∧
      (∀ s ∈ st'.db.sessions,
        ¬ dateOf s.startTime < dateOf (200000 - ((30 : Nat) : Int) * 86400)) ∧
      st'.db.backups = c1_state.db.backups :=
  c6_amended_rollover c1_state 200000 (by decide)

theorem foldl_upsert_users_sessions (l : List (String × String)) (db : Store) :
    (l.foldl (fun db p => { db with users := upsert db.users p.1 p.2 }) db).sessions
      = db.sessions := by
  induction l generalizing db with
  | nil => rfl
  | cons p rest ih =>
    rw [List.foldl_cons]
    exact ih _

theorem foldl_upsert_guilds_sessions (l : List (String × String)) (db : Store) :
    (l.foldl (fun db p => { db with guilds := upsert db.guilds p.1 p.2 }) db).sessions
      = db.sessions := by
  induction l generalizing db with
  | nil => rfl
  | cons p rest ih =>
    rw [List.foldl_cons]
    exact ih _

theorem foldlM_upsert_channels_sessions (l : List (String × String × String)) (db db2 : Store)
    (h : l.foldlM (fun db p =>
      if db.guilds.any (fun q => q.1 == p.2.2) then
        some { db with channels := upsertChannel db.channels p.1 p.2.1 p.2.2 }
      else none) db = some db2) :
    db2.sessions = db.sessions := by
  induction l generalizing db with
  | nil =>
    rw [List.foldlM_nil] at h
    obtain rfl := Option.some.inj h
    rfl
  | cons p rest ih =>
    rw [List.foldlM_cons] at h
    by_cases hc : db.guilds.any (fun q => q.1 == p.2.2) = true
    · rw [if_pos hc, bind_eq_of_eq_some rfl] at h
      have h4 := ih _ h
      exact h4
    · rw [if_neg hc] at h
      cases h

theorem foldl_import_rows_islive (rows : List SessionRow) (db : Store) (s : Session)
    (hs : s ∈ (rows.foldl import_session_row db).sessions) :
    s ∈ db.sessions ∨ s.isLive = false := by
  induction rows generalizing db with
  | nil => exact Or.inl hs
  | cons r rest ih =>
    rw [List.foldl_cons] at hs
    rcases ih _ hs with h2 | h2
    · rw [import_session_row] at h2
      split at h2
      · exact Or.inl h2
      · split at h2
        · rcases List.mem_append.mp h2 with h3 | h3
          · exact Or.inl h3
          · rw [List.mem_singleton] at h3
            subst h3
            exact Or.inr rfl
        · exact Or.inl h2
    · exact Or.inr h2

/-- C10: the snapshot round trip does not preserve `is_live`.
The exported artifact is unchanged when every session's `is_live`
flag is rewritten (the record simply omits the flag), and every
session that `import_from_json`'s row loop recreates (one not
already present in the store) has `is_live = false`, even when
the original session was created with `is_live = true`; such a
session therefore never receives the stream-bonus multiplier at
close time. -/
theorem c10_roundtrip_drops_islive :
    (∀ (db : Store) (b : Bool),
      backupOf { db with sessions := db.sessions.map (fun s => { s with isLive := b }) }
        = backupOf db) ∧
    (∀ (st : Store) (d : BackupData) (db2 : Store), import_backup st d = some db2 →
      ∀ s ∈ db2.sessions, s ∈ st.sessions ∨ s.isLive = false) := by
  constructor
  · intro db b
    simp only [backupOf, List.map_map]
    congr 1
  · intro st d db2 h s hs
    rw [import_backup] at h
    obtain ⟨dbc, hX, h2⟩ := Option.bind_eq_some.mp h
    obtain rfl := Option.some.inj h2
    rcases foldl_import_rows_islive d.voiceSessions dbc s hs with h3 | h3
    · left
      rw [foldlM_upsert_channels_sessions d.channels _ dbc hX,
        foldl_upsert_guilds_sessions, foldl_upsert_users_sessions] at h3
      exact h3
    · exact Or.inr h3

/-- Witness for C10: a live session exported and imported into an
empty store comes back with `is_live = false`. -/
theorem c10_witness :
    c10_session.isLive = true ∧
    import_backup (emptyStore []) (backupOf c10_db) = some c10_result ∧
    (c10_imported ∈ (emptyStore []).sessions ∨ c10_imported.isLive = false) :=
  ⟨by decide, by decide,
    c10_roundtrip_drops_islive.2 (emptyStore []) (backupOf c10_db) c10_result
      (by decide) c10_imported (by decide)⟩

theorem find?_append_singleton {α : Type} (p : α → Bool) (l : List α) (a : α)
    (h : ∀ x ∈ l, p x = false) (ha : p a = true) :
    (l ++ [a]).find? p = some a := by
  induction l with
  | nil =>
    simp [List.find?, ha]
  | cons x rest ih =>
    rw [List.cons_append, List.find?_cons_of_neg]
    · exact ih (fun y hy => h y (List.mem_cons_of_mem _ hy))
    · rw [h x (List.mem_cons_self _ _)]
      simp

/-- C9 (amended): startup recovery consults only the in-memory
dictionaries, which are empty after a restart.  For a connected
active member whose store already holds an open session (for
example one recreated from the snapshot), `start_active_session`
therefore opens a second session instead of reusing the existing
one, leaving two open sessions for the user, and the reported
voice time immediately afterwards carries no live contribution
from the pre-crash session: it equals the stored closed-session
sums alone, the new session contributing `now - now = 0`. -/
theorem c9_amended_duplicate_after_restart (st : TrackerState) (m : Member) (now : Int)
    (s : Session)
    (hA : st.activeSessions = []) (hI : st.inactiveSessions = [])
    (hact : is_user_active m = true)
    (hs : s ∈ st.db.sessions) (hu : s.userId = m.userId) (hopen : s.endTime = none)
    (hfresh : ∀ t ∈ st.db.sessions, t.sid < st.db.nextId) :
    ∃ st', start_active_session st m now = some st' ∧
      s ∈ st'.db.sessions ∧ s.endTime = none ∧
      (∃ s2 ∈ st'.db.sessions, s2.sid ≠ s.sid ∧ s2.userId = m.userId ∧ s2.endTime = none) ∧
      voice_time_total st' m.userId m.guildId now =
        get_user_time_for_date st'.db m.userId m.guildId (dateOf now) (some true)
        + get_user_time_for_date st'.db m.userId m.guildId (dateOf now) (some false) := by
  have hlookA : dictLookup m.userId st.activeSessions = none := by
    rw [hA]
    rfl
  have hlookI : dictLookup m.userId st.inactiveSessions = none := by
    rw [hI]
    rfl
  have hg : ((dictLookup m.userId st.activeSessions).isNone && is_user_active m) = true := by
    rw [hlookA, hact]
    rfl
  have hrun : start_active_session st m now = some
      { st with
        db := (start_session st.db m.userId m.guildId (m.channelId.getD "")
          m.username m.guildName m.channelName now true false).1,
        activeSessions := (m.userId, st.db.nextId) :: st.activeSessions } := by
    rw [start_active_session, if_pos hg]
    have hc2 : ¬ (dictLookup m.userId st.inactiveSessions).isSome = true := by
      rw [hlookI]
      simp
    rw [if_neg hc2, bind_eq_of_eq_some (rfl : (pure st : Option TrackerState) = some st)]
    rfl
  refine ⟨_, hrun, ?_, hopen, ?_, ?_⟩
  · dsimp only [start_session]
    exact List.mem_append_left _ hs
  · refine ⟨_, List.mem_append_right _ (List.mem_singleton_self _), ?_, rfl, rfl⟩
    intro he
    exact absurd (he ▸ hfresh s hs) (lt_irrefl _)
  · have hdla : dictLookup m.userId ((m.userId, st.db.nextId) :: st.activeSessions)
        = some st.db.nextId := by
      simp [dictLookup]
    have hget : get_active_session_time
        (start_session st.db m.userId m.guildId (m.channelId.getD "")
          m.username m.guildName m.channelName now true false).1 st.db.nextId now = 0 := by
      rw [get_active_session_time]
      have hfind : (st.db.sessions ++ [newSessionOf m now st.db.nextId]).find?
          (fun t => t.sid == st.db.nextId && t.endTime.isNone)
          = some (newSessionOf m now st.db.nextId) := by
        refine find?_append_singleton _ _ _ ?_ (by simp [newSessionOf])
        intro x hx
        have hlt := hfresh x hx
        simp [Nat.ne_of_lt hlt]
      rw [show (start_session st.db m.userId m.guildId (m.channelId.getD "")
          m.username m.guildName m.channelName now true false).1.sessions
        = st.db.sessions ++ [newSessionOf m now st.db.nextId] from rfl]
      rw [hfind]
      show ((now - now : Int) : ℚ) = 0
      norm_num
    rw [voice_time_total, voice_time]
    dsimp only
    rw [hdla, hlookI]
    dsimp only
    rw [hget]
    norm_num

/-- Counterexample for C9 as stated: restarting with a snapshot
holding an open session for the still-connected member "u9"
(session started at 800, restart at 1000), startup creates a
second open session for that user in the store, and the
voice-time query at 1000 reports 0 seconds, not the at least 200
seconds accrued before the crash. -/
theorem c9_counterexample :
    startup c9_state [c9_member] 1000 = some c9_result ∧
    (c9_result.db.sessions.filter (fun s => s.userId == "u9" && s.endTime.isNone)).length = 2 ∧
    voice_time_total c9_result "u9" "g9" 1000 = 0 ∧ (0 : ℚ) < 200 := by
  refine ⟨by decide, by decide, ?_, by decide⟩
  have h1 : get_active_session_time c9_result.db 2 1000 = 0 := by decide
  have h2 : get_user_time_for_date c9_result.db "u9" "g9" (dateOf 1000) (some true) = 0 := by
    decide
  have h3 : get_user_time_for_date c9_result.db "u9" "g9" (dateOf 1000) (some false) = 0 := by
    decide
  rw [voice_time_total, voice_time]
  dsimp only
  rw [show dictLookup "u9" c9_result.activeSessions = some 2 from by decide]
  rw [show dictLookup "u9" c9_result.inactiveSessions = none from by decide]
  dsimp only
  rw [h1, h2, h3]
  norm_num

/-- Witness for C9 (amended) at the concrete post-import state. -/
theorem c9_witness :
    ∃ st', start_active_session c9_mid c9_member 1000 = some st' ∧
      c9_session1 ∈ st'.db.sessions ∧ c9_session1.endTime = none ∧
      (∃ s2 ∈ st'.db.sessions, s2.sid ≠ c9_session1.sid ∧ s2.userId = c9_member.userId ∧
        s2.endTime = none) ∧
      voice_time_total st' c9_member.userId c9_member.guildId 1000 =
        get_user_time_for_date st'.db c9_member.userId c9_member.guildId
          (dateOf 1000) (some true)
        + get_user_time_for_date st'.db c9_member.userId c9_member.guildId
          (dateOf 1000) (some false) :=
  c9_amended_duplicate_after_restart c9_mid c9_member 1000 c9_session1
    (by decide) (by decide) (by decide) (by decide) (by decide) (by decide) (by decide)

theorem filterMap_sum_partition (l : List Session) (p : Session → Bool) :
    (l.filterMap (fun s => if p s && (s.isActive == true) then s.durationSeconds else none)).sum
      + (l.filterMap (fun s => if p s && (s.isActive == false) then s.durationSeconds else none)).sum
    = (l.filterMap (fun s => if p s then s.durationSeconds else none)).sum := by
  induction l with
  | nil => simp
  | cons a rest ih =>
    by_cases hp : p a = true
    · cases hact : a.isActive
      · cases hd : a.durationSeconds with
        | none => simpa [List.filterMap_cons, hp, hact, hd] using ih
        | some q =>
          simp [List.filterMap_cons, hp, hact, hd] at ih ⊢
          rw [← ih]
          ring
      · cases hd : a.durationSeconds with
        | none => simpa [List.filterMap_cons, hp, hact, hd] using ih
        | some q =>
          simp [List.filterMap_cons, hp, hact, hd] at ih ⊢
          rw [← ih]
          ring
    · rw [Bool.not_eq_true] at hp
      simpa [List.filterMap_cons, hp] using ih

theorem filter_eq_singleton_of {α : Type} {l : List α} {p : α → Bool} {a : α}
    (hn : l.Nodup) (ha : a ∈ l) (hpa : p a = true)
    (hall : ∀ b ∈ l, p b = true → b = a) : l.filter p = [a] := by
  induction l with
  | nil => cases ha
  | cons x rest ih =>
    rw [List.nodup_cons] at hn
    rcases List.mem_cons.mp ha with rfl | ha2
    · rw [List.filter_cons, if_pos hpa]
      have hrest : rest.filter p = [] := by
        rw [List.filter_eq_nil]
        intro b hb hpb
        exact hn.1 ((hall b (List.mem_cons_of_mem _ hb) hpb) ▸ hb)
      rw [hrest]
    · have hpx : ¬ p x = true := by
        intro hpx
        have hxa := hall x (List.mem_cons_self _ _) hpx
        subst hxa
        exact hn.1 ha2
      rw [List.filter_cons, if_neg hpx]
      exact ih hn.2 ha2 (fun b hb hpb => hall b (List.mem_cons_of_mem _ hb) hpb)

theorem streamBonusDefault_eq : streamBonusDefault = 5 / 4 := by
  rw [streamBonusDefault]
  rw [Rat.mk'_eq_divInt, Rat.divInt_eq_div]
  norm_num

/-- C4 (amended): for every invariant-satisfying tracker state,
the reported voice time equals the sum of recorded
`duration_seconds` over sessions matching (user, guild, today)
plus the raw live elapsed time `now - start_time` of the user's
open session; no stream-bonus adjustment is applied to the live
part, whether or not the open session has `is_live` set. -/
theorem c4_amended_reported_time (st : TrackerState) (userId guildId : String) (now : Int)
    (hInv : TrackerInv st) :
    voice_time_total st userId guildId now = spec_total_unadjusted st userId guildId now := by
  obtain ⟨h1, h2, h3, h4, h5, h6⟩ := hInv
  have hnodup : st.db.sessions.Nodup := List.Nodup.of_map Session.sid h2
  have hsplit : get_user_time_for_date st.db userId guildId (dateOf now) (some true)
      + get_user_time_for_date st.db userId guildId (dateOf now) (some false)
      = (st.db.sessions.filterMap (fun s =>
          if s.userId == userId && s.guildId == guildId && dateOf s.startTime == dateOf now
          then s.durationSeconds else none)).sum := by
    rw [get_user_time_for_date, get_user_time_for_date]
    exact filterMap_sum_partition st.db.sessions
      (fun s => s.userId == userId && s.guildId == guildId && dateOf s.startTime == dateOf now)
  cases hA2 : dictLookup userId st.activeSessions with
  | some sid =>
    obtain ⟨s0, hs0mem, hs0sid, hs0user, hs0open, hs0act⟩ :=
      h4 (userId, sid) (mem_of_dictLookup hA2)
    have hI2 : dictLookup userId st.inactiveSessions = none :=
      h3 (userId, sid) (mem_of_dictLookup hA2)
    have hcond : (fun t => t.sid == sid && t.endTime.isNone) s0 = true := by
      simp [hs0sid, hs0open]
    have hfind : st.db.sessions.find? (fun t => t.sid == sid && t.endTime.isNone)
        = some s0 := by
      cases hf : st.db.sessions.find? (fun t => t.sid == sid && t.endTime.isNone) with
      | none =>
        rw [List.find?_eq_none] at hf
        exact absurd hcond (hf s0 hs0mem)
      | some s1 =>
        have hp1 := List.find?_some hf
        have hm1 := List.mem_of_find?_eq_some hf
        simp only [Bool.and_eq_true, beq_iff_eq, Option.isNone_iff_eq_none] at hp1
        have he : s1 = s0 := eq_of_nodup_map h2 hm1 hs0mem (by rw [hp1.1, hs0sid])
        rw [he]
    have hget : get_active_session_time st.db sid now = ((now - s0.startTime : Int) : ℚ) := by
      rw [get_active_session_time, hfind]
    have hfilter : st.db.sessions.filter (fun s => s.userId == userId && s.endTime.isNone)
        = [s0] := by
      refine filter_eq_singleton_of hnodup hs0mem (by simp [hs0user, hs0open]) ?_
      intro b hb hpb
      simp only [Bool.and_eq_true, beq_iff_eq, Option.isNone_iff_eq_none] at hpb
      obtain ⟨hbuser, hbopen⟩ := hpb
      obtain ⟨hAb, hIb⟩ := h6 b hb hbopen
      cases hbact : b.isActive
      · have e := hIb hbact
        rw [hbuser, hI2] at e
        cases e
      · have e := hAb hbact
        rw [hbuser, hA2] at e
        refine eq_of_nodup_map h2 hb hs0mem ?_
        rw [hs0sid]
        exact (Option.some.inj e).symm
    rw [voice_time_total, voice_time, spec_total_unadjusted]
    dsimp only
    rw [hA2, hI2]
    dsimp only
    rw [hget, hfilter, List.map_singleton, List.sum_singleton, ← hsplit]
    ring
  | none =>
    cases hI2 : dictLookup userId st.inactiveSessions with
    | some sid =>
      obtain ⟨s0, hs0mem, hs0sid, hs0user, hs0open, hs0act⟩ :=
        h5 (userId, sid) (mem_of_dictLookup hI2)
      have hcond : (fun t => t.sid == sid && t.endTime.isNone) s0 = true := by
        simp [hs0sid, hs0open]
      have hfind : st.db.sessions.find? (fun t => t.sid == sid && t.endTime.isNone)
          = some s0 := by
        cases hf : st.db.sessions.find? (fun t => t.sid == sid && t.endTime.isNone) with
        | none =>
          rw [List.find?_eq_none] at hf
          exact absurd hcond (hf s0 hs0mem)
        | some s1 =>
          have hp1 := List.find?_some hf
          have hm1 := List.mem_of_find?_eq_some hf
          simp only [Bool.and_eq_true, beq_iff_eq, Option.isNone_iff_eq_none] at hp1
          have he : s1 = s0 := eq_of_nodup_map h2 hm1 hs0mem (by rw [hp1.1, hs0sid])
          rw [he]
      have hget : get_active_session_time st.db sid now = ((now - s0.startTime : Int) : ℚ) := by
        rw [get_active_session_time, hfind]
      have hfilter : st.db.sessions.filter (fun s => s.userId == userId && s.endTime.isNone)
          = [s0] := by
        refine filter_eq_singleton_of hnodup hs0mem (by simp [hs0user, hs0open]) ?_
        intro b hb hpb
        simp only [Bool.and_eq_true, beq_iff_eq, Option.isNone_iff_eq_none] at hpb
        obtain ⟨hbuser, hbopen⟩ := hpb
        obtain ⟨hAb, hIb⟩ := h6 b hb hbopen
        cases hbact : b.isActive
        · have e := hIb hbact
          rw [hbuser, hI2] at e
          refine eq_of_nodup_map h2 hb hs0mem ?_
          rw [hs0sid]
          exact (Option.some.inj e).symm
        · have e := hAb hbact
          rw [hbuser, hA2] at e
          cases e
      rw [voice_time_total, voice_time, spec_total_unadjusted]
      dsimp only
      rw [hA2, hI2]
      dsimp only
      rw [hget, hfilter, List.map_singleton, List.sum_singleton, ← hsplit]
      ring
    | none =>
      have hfilter : st.db.sessions.filter (fun s => s.userId == userId && s.endTime.isNone)
          = [] := by
        rw [List.filter_eq_nil]
        intro b hb hpb
        simp only [Bool.and_eq_true, beq_iff_eq, Option.isNone_iff_eq_none] at hpb
        obtain ⟨hbuser, hbopen⟩ := hpb
        obtain ⟨hAb, hIb⟩ := h6 b hb hbopen
        cases hbact : b.isActive
        · have e := hIb hbact
          rw [hbuser, hI2] at e
          cases e
        · have e := hAb hbact
          rw [hbuser, hA2] at e
          cases e
      rw [voice_time_total, voice_time, spec_total_unadjusted]
      dsimp only
      rw [hA2, hI2]
      dsimp only
      rw [hfilter, ← hsplit]
      rw [List.map_nil, List.sum_nil]
      ring

/-- Counterexample for C4 as stated: with the live session
`c4_session` open and tracked (started at 1000, queried at 1100,
stream bonus 5/4), the code reports 100 seconds while the claim's
multiplier-adjusted formula yields 125: the live read ignores
`is_live`. -/
theorem c4_counterexample :
    voice_time_total c4_state "u4" "g4" 1100 = 100 ∧
    claim_reported_total c4_state "u4" "g4" 1100 = 125 ∧
    (100 : ℚ) ≠ 125 := by
  refine ⟨?_, ?_, by decide⟩
  · have h1 : get_active_session_time c4_state.db 0 1100 = 100 := by decide
    have h2 : get_user_time_for_date c4_state.db "u4" "g4" (dateOf 1100) (some true) = 0 := by
      decide
    have h3 : get_user_time_for_date c4_state.db "u4" "g4" (dateOf 1100) (some false) = 0 := by
      decide
    rw [voice_time_total, voice_time]
    dsimp only
    rw [show dictLookup "u4" c4_state.activeSessions = some 0 from by decide]
    rw [show dictLookup "u4" c4_state.inactiveSessions = none from by decide]
    dsimp only
    rw [h1, h2, h3]
    norm_num
  · have hlive : live_elapsed_adjusted c4_state.db 0 1100 = 125 := by
      rw [live_elapsed_adjusted,
        show c4_state.db.sessions.find? (fun s => s.sid == 0 && s.endTime.isNone)
          = some c4_session from by decide]
      dsimp only
      norm_num [c4_session, show c4_state.db.streamBonus = 5 / 4 from streamBonusDefault_eq]
    have hclosed : (c4_state.db.sessions.filterMap (fun s =>
        if s.userId == "u4" && s.guildId == "g4" && dateOf s.startTime == dateOf 1100
        then s.durationSeconds else none)).sum = 0 := by decide
    rw [claim_reported_total]
    rw [show dictLookup "u4" c4_state.activeSessions = some 0 from by decide]
    rw [show dictLookup "u4" c4_state.inactiveSessions = none from by decide]
    dsimp only
    rw [hclosed, hlive]
    norm_num

/-- Witness for C4 (amended) at the reachable state `c1_state`. -/
theorem c4_witness :
    voice_time_total c1_state "a" "g" 150 = spec_total_unadjusted c1_state "a" "g" 150 :=
  c4_amended_reported_time c1_state "a" "g" 150 (by decide)
